import Mathlib

/-!
Verification of the molecular simulation core (simulate.pyx and relax.pyx).

The Cython source is shallowly embedded: C floats are modelled as exact
rationals, the C library sqrt is passed as an explicit function parameter
`sq` (so every definition stays computable), malloc-backed arrays become
lists, and the arena-allocated octree becomes a list of nodes addressed by
index.  `qsqrt` is a computable rational square root that is exact on
perfect squares; it is used to evaluate witnesses on concrete inputs.
-/

/-- Kernel-reducible integer square root (largest r with r * r <= n). -/
def isqrt (n : Nat) : Nat :=
  (List.range (n + 1)).foldl (fun acc r => if r * r ≤ n then r else acc) 0

/-- Computable rational square root, exact whenever numerator and
denominator are perfect squares (used only to instantiate the abstract
square-root parameter on concrete witness inputs). -/
def qsqrt (q : ℚ) : ℚ :=
  (isqrt q.num.toNat : ℚ) / (isqrt q.den : ℚ)

/-- C cast of a float to int: truncation toward zero. -/
def ctrunc (q : ℚ) : ℤ :=
  if 0 ≤ q then ⌊q⌋ else ⌈q⌉

/-- C fmod (the float modulo used by `x % 2.0` in Cython): the remainder
after removing the truncated quotient. -/
def cfmod (x y : ℚ) : ℚ :=
  x - y * (ctrunc (x / y) : ℚ)

/-- Three float components, as in the C arrays loc[3], vel[3], com[3]. -/
structure Vec3 where
  x : ℚ
  y : ℚ
  z : ℚ
  deriving DecidableEq, Inhabited

/-- One entry of the Links array; only the lenght field (sic, as in the
source) is read by the code modelled here. -/
structure LinkInfo where
  lenght : ℚ
  deriving DecidableEq, Inhabited

/-- The Particle struct fields read by the modelled code, together with
the two per-system settings it consults (sys.links_active via the
non-owning group pointer). -/
structure Particle where
  id : ℤ
  loc : Vec3
  vel : Vec3
  size : ℚ
  mass : ℚ
  state : ℤ
  links_active : Bool
  links : List LinkInfo
  deriving DecidableEq, Inhabited

/- ============================================================
   Rotation seeder: apply_initial_rotation_once (simulate.pyx)
   ============================================================ -/

/-- Planar radius sqrt(x*x + y*y) of a particle, as computed in
apply_initial_rotation_once. -/
def planar_radius (sq : ℚ → ℚ) (p : Particle) : ℚ :=
  sq (p.loc.x * p.loc.x + p.loc.y * p.loc.y)

/-- First pass of apply_initial_rotation_once: running maximum of the
planar radius over particles with positive mass, starting from 0. -/
def rotation_r_max (sq : ℚ → ℚ) (parlist : List Particle) : ℚ :=
  parlist.foldl
    (fun r_max p =>
      if 0 < p.mass then
        (if r_max < planar_radius sq p then planar_radius sq p else r_max)
      else r_max)
    0

/-- Enclosed-mass loop of apply_initial_rotation_once: total mass of the
positive-mass particles whose planar radius is at most r_xy. -/
def enclosed_mass (sq : ℚ → ℚ) (parlist : List Particle) (r_xy : ℚ) : ℚ :=
  parlist.foldl
    (fun acc q =>
      if 0 < q.mass then
        (if planar_radius sq q ≤ r_xy then acc + q.mass else acc)
      else acc)
    0

/-- apply_initial_rotation_once from simulate.pyx: one-shot tangential
velocity seeding from enclosed mass with core softening.  The loop only
writes vel[0] and vel[1] while reading loc and mass, so the in-place
update is a map over the particle list. -/
def apply_initial_rotation_once (sq : ℚ → ℚ) (G strength falloff : ℚ)
    (parlist : List Particle) : List Particle :=
  let r_max0 := rotation_r_max sq parlist
  let r_max := if r_max0 < 1/1000 then 1 else r_max0
  let r_core := falloff * r_max
  parlist.map (fun p =>
    if p.mass ≤ 0 then p
    else
      let r_xy := planar_radius sq p
      if r_xy < 1/1000 then p
      else
        let em := enclosed_mass sq parlist r_xy
        if em ≤ 0 then p
        else
          let r_effective := sq (r_xy * r_xy + r_core * r_core)
          let inv_r := 1 / r_xy
          let tangent_dir_x := -p.loc.y * inv_r
          let tangent_dir_y := p.loc.x * inv_r
          let v_tangent := strength * sq (G * em / r_effective)
          { p with vel := ⟨p.vel.x + tangent_dir_x * v_tangent,
                           p.vel.y + tangent_dir_y * v_tangent,
                           p.vel.z⟩ })

/- Helper lemmas about the enclosed-mass fold. -/

theorem enclosed_mass_foldl_mono (sq : ℚ → ℚ) (r_xy : ℚ) (l : List Particle)
    (acc : ℚ) :
    acc ≤ l.foldl
      (fun acc q =>
        if 0 < q.mass then
          (if planar_radius sq q ≤ r_xy then acc + q.mass else acc)
        else acc)
      acc := by
  induction l generalizing acc with
  | nil => simp
  | cons a l ih =>
    refine le_trans ?_ (ih _)
    by_cases h1 : 0 < a.mass
    · by_cases h2 : planar_radius sq a ≤ r_xy <;> simp [h1, h2]
      linarith
    · simp [h1]

theorem enclosed_mass_foldl_mem (sq : ℚ → ℚ) (r_xy : ℚ) (l : List Particle)
    (p : Particle) (hp : p ∈ l) (hm : 0 < p.mass)
    (hr : planar_radius sq p ≤ r_xy) (acc : ℚ) :
    acc + p.mass ≤ l.foldl
      (fun acc q =>
        if 0 < q.mass then
          (if planar_radius sq q ≤ r_xy then acc + q.mass else acc)
        else acc)
      acc := by
  induction l generalizing acc with
  | nil => cases hp
  | cons a l ih =>
    rcases List.mem_cons.1 hp with h | h
    · subst h
      simpa [hm, hr] using enclosed_mass_foldl_mono sq r_xy l (acc + p.mass)
    · refine le_trans ?_ (ih h _)
      by_cases h1 : 0 < a.mass
      · by_cases h2 : planar_radius sq a ≤ r_xy <;> simp [h1, h2]
        linarith
      · simp [h1]

/-- A positive-mass member of the list makes the enclosed mass at its own
radius positive (the skipped enclosed_mass <= 0 branch is unreachable for
such a particle). -/
theorem enclosed_mass_pos (sq : ℚ → ℚ) (parlist : List Particle)
    (p : Particle) (hp : p ∈ parlist) (hm : 0 < p.mass) :
    0 < enclosed_mass sq parlist (planar_radius sq p) := by
  have h := enclosed_mass_foldl_mem sq (planar_radius sq p) parlist p hp hm
    le_rfl 0
  unfold enclosed_mass
  linarith

/-- C1: for every particle with positive mass whose planar radius
r = sqrt(x*x+y*y) is at least the degeneracy threshold 1/1000, the
one-shot rotation seeder adds to its velocity (z unchanged) the in-plane
perpendicular direction (-y/r, x/r) scaled by
strength * sqrt(G * M(r) / r_eff), where M(r) sums the masses of
positive-mass particles with planar radius at most r,
r_eff = sqrt(r^2 + r_core^2), r_core = falloff * r_max, and r_max is the
largest planar radius among positive-mass particles (replaced by 1 when
degenerate); particles at the exact center (r below the threshold) are
left untouched. -/
theorem C1_rotation_seeder (sq : ℚ → ℚ) (G strength falloff : ℚ)
    (parlist : List Particle) (i : Nat) (p : Particle)
    (hp : parlist.get? i = some p) (hm : 0 < p.mass) :
    (1/1000 ≤ planar_radius sq p →
      (apply_initial_rotation_once sq G strength falloff parlist).get? i =
        some { p with vel :=
          ⟨p.vel.x + (-p.loc.y / planar_radius sq p) * (strength *
              sq (G * enclosed_mass sq parlist (planar_radius sq p) /
                sq (planar_radius sq p * planar_radius sq p +
                  (falloff * (if rotation_r_max sq parlist < 1/1000 then 1
                    else rotation_r_max sq parlist)) *
                  (falloff * (if rotation_r_max sq parlist < 1/1000 then 1
                    else rotation_r_max sq parlist))))),
           p.vel.y + (p.loc.x / planar_radius sq p) * (strength *
              sq (G * enclosed_mass sq parlist (planar_radius sq p) /
                sq (planar_radius sq p * planar_radius sq p +
                  (falloff * (if rotation_r_max sq parlist < 1/1000 then 1
                    else rotation_r_max sq parlist)) *
                  (falloff * (if rotation_r_max sq parlist < 1/1000 then 1
                    else rotation_r_max sq parlist))))),
           p.vel.z⟩ }) ∧
    (planar_radius sq p < 1/1000 →
      (apply_initial_rotation_once sq G strength falloff parlist).get? i =
        some p) := by
  have hmem : p ∈ parlist := List.get?_mem hp
  have hnm : ¬ p.mass ≤ 0 := not_le.2 hm
  constructor
  · intro hr
    have hnotlt : ¬ planar_radius sq p < 1/1000 := not_lt.2 hr
    have hem : ¬ enclosed_mass sq parlist (planar_radius sq p) ≤ 0 :=
      not_le.2 (enclosed_mass_pos sq parlist p hmem hm)
    simp only [apply_initial_rotation_once, List.get?_map, hp,
      Option.map_some', if_neg hnm, if_neg hnotlt, if_neg hem,
      Option.some.injEq]
    congr 1
    simp only [Vec3.mk.injEq]
    refine ⟨by ring, by ring, trivial⟩
  · intro hr
    simp only [apply_initial_rotation_once, List.get?_map, hp,
      Option.map_some', if_neg hnm, if_pos hr]

/- ============================================================
   Barnes-Hut octree (structures.pyx, simulate.pyx)
   ============================================================ -/

/-- OctreeNode from structures.pyx; the eight child pointers into the
arena are modelled as optional arena indices (NULL is none). -/
structure OctreeNode where
  center : Vec3
  half_size : ℚ
  mass : ℚ
  com : Vec3
  particle_id : ℤ
  is_leaf : Bool
  num_particles : ℤ
  children : Fin 8 → Option Nat
  deriving DecidableEq

instance : Inhabited OctreeNode :=
  ⟨⟨⟨0, 0, 0⟩, 0, 0, ⟨0, 0, 0⟩, -1, true, 0, fun _ => none⟩⟩

/-- Octree from structures.pyx: the pre-allocated node pool is the list of
nodes allocated so far (indices below next_free), capped by pool_size. -/
structure Octree where
  node_pool : List OctreeNode
  pool_size : Nat
  next_free : Nat
  theta : ℚ
  G : ℚ
  softening : ℚ
  deriving DecidableEq, Inhabited

/-- Read node i of the pool (the C code only ever dereferences indices of
allocated nodes). -/
def getNode (t : Octree) (i : Nat) : OctreeNode :=
  t.node_pool.getD i default

/-- Write node i of the pool, as assignment through an OctreeNode pointer. -/
def setNode (t : Octree) (i : Nat) (n : OctreeNode) : Octree :=
  { t with node_pool := t.node_pool.set i n }

/-- The blank node produced by allocate_node before the caller fills in
center and half_size (which the C code leaves uninitialised; zero here). -/
def blankNode : OctreeNode :=
  ⟨⟨0, 0, 0⟩, 0, 0, ⟨0, 0, 0⟩, -1, true, 0, fun _ => none⟩

/-- allocate_node from simulate.pyx: returns NULL (none) when next_free
has reached pool_size, otherwise hands out the next pool slot initialised
as an empty leaf. -/
def allocate_node (t : Octree) : Option (Octree × Nat) :=
  if t.pool_size ≤ t.next_free then none
  else
    let t2 : Octree :=
      { t with node_pool := t.node_pool ++ [blankNode],
               next_free := t.next_free + 1 }
    some (t2, t.next_free)

/-- Octree_create from simulate.pyx: pool sized at 2x the particle count. -/
def Octree_create (max_particles : Nat) (theta G softening : ℚ) : Octree :=
  { node_pool := [], pool_size := max_particles * 2, next_free := 0,
    theta := theta, G := G, softening := softening }

/-- get_octant from simulate.pyx: 3-bit octant code from comparing each
coordinate with the node center. -/
def get_octant (px py pz cx cy cz : ℚ) : Fin 8 :=
  ⟨(if cx ≤ px then 1 else 0) + (if cy ≤ py then 2 else 0) +
      (if cz ≤ pz then 4 else 0), by
    split <;> split <;> split <;> simp⟩

/-- Child box center: parent center shifted by the new half size along
each axis according to the octant bits (simulate.pyx lines 166-168). -/
def child_center (cx cy cz new_half : ℚ) (octant : Fin 8) : Vec3 :=
  ⟨cx + (if octant.val.testBit 0 then new_half else -new_half),
   cy + (if octant.val.testBit 1 then new_half else -new_half),
   cz + (if octant.val.testBit 2 then new_half else -new_half)⟩

/-- Dereference parlist[pid] for a stored particle id. -/
def lookup_particle (parlist : List Particle) (pid : ℤ) : Particle :=
  parlist.getD pid.toNat default

mutual

/-- Shared child-descent block of Octree_insert (simulate.pyx lines
162-176 and 181-195, which are textually identical up to the particle
being inserted): find the child octant for particle q relative to the
node box center, allocate and initialise the child node if absent
(reporting exhaustion through the Bool when allocate_node returns NULL),
then recurse into the child at depth child_depth.  Reading the children
pointer and the stored child center goes through the pool, as the C code
reads them through the node pointer. -/
def insert_into_child (parlist : List Particle) (t : Octree) (idx : Nat)
    (q : Particle) (cx cy cz new_half : ℚ) (child_depth : Nat) :
    Octree × Bool :=
  let o := get_octant q.loc.x q.loc.y q.loc.z cx cy cz
  match (getNode t idx).children o with
  | none =>
    match allocate_node t with
    | none => (t, true)
    | some (t1, c) =>
      let cc := child_center cx cy cz new_half o
      let t2 := setNode t1 c
        { getNode t1 c with center := cc, half_size := new_half }
      let t3 := setNode t2 idx
        { getNode t2 idx with
            children := Function.update (getNode t2 idx).children
              o (some c) }
      (Octree_insert parlist t3 c q cc.x cc.y cc.z new_half child_depth,
       false)
  | some c =>
    let ccn := getNode t c
    (Octree_insert parlist t c q ccn.center.x ccn.center.y ccn.center.z
      new_half child_depth, false)
termination_by 2 * (51 - child_depth) + 1
decreasing_by all_goals omega

/-- Octree_insert from simulate.pyx: recursive insertion with incremental
center-of-mass and mass accumulation on every visited node.  Node
pointers become arena indices; assignments through a pointer become
setNode updates, performed in the same order as the source.  The early
returns on pool exhaustion (allocate_node returning NULL) are modelled
exactly; the depth > 50 guard is the recursion bound of the source. -/
def Octree_insert (parlist : List Particle) (t : Octree) (idx : Nat)
    (par : Particle) (cx cy cz half_size : ℚ) (depth : Nat) : Octree :=
  if h : 50 < depth then t
  else
    let new_half := half_size * (1/2)
    let n0 := getNode t idx
    let total_mass := n0.mass + par.mass
    let n1 :=
      if 0 < total_mass then
        { n0 with com :=
            ⟨(n0.com.x * n0.mass + par.loc.x * par.mass) / total_mass,
             (n0.com.y * n0.mass + par.loc.y * par.mass) / total_mass,
             (n0.com.z * n0.mass + par.loc.z * par.mass) / total_mass⟩ }
      else n0
    let n2 := { n1 with mass := total_mass,
                        num_particles := n1.num_particles + 1 }
    if n2.is_leaf ∧ n2.particle_id = -1 then
      setNode t idx { n2 with particle_id := par.id }
    else
      -- subdivision of a leaf that already holds a particle; the Bool is
      -- the early-return flag raised on pool exhaustion
      let phaseB : Octree × Bool :=
        if n2.is_leaf then
          let n3 := { n2 with is_leaf := false }
          let tB0 := setNode t idx n3
          let existing := lookup_particle parlist n3.particle_id
          let r := insert_into_child parlist tB0 idx existing cx cy cz
            new_half (depth + 1)
          if r.2 then (r.1, true)
          else
            (setNode r.1 idx { getNode r.1 idx with particle_id := -1 },
             false)
        else (setNode t idx n2, false)
      if phaseB.2 then phaseB.1
      else
        (insert_into_child parlist phaseB.1 idx par cx cy cz new_half
          (depth + 1)).1
termination_by 2 * (51 - depth)
decreasing_by all_goals omega

end


/-- Octree_calculate_force from simulate.pyx: recursive Barnes-Hut force
walk.  The C recursion follows child pointers of the finite arena tree;
the model uses an explicit fuel argument (any fuel above the pool size is
enough on well-formed trees, since child indices strictly increase). -/
def Octree_calculate_force (sq : ℚ → ℚ) (t : Octree) (fuel : Nat)
    (idx : Nat) (par : Particle) (force : Vec3) : Vec3 :=
  match fuel with
  | 0 => force
  | fuel + 1 =>
    let node := getNode t idx
    if node.num_particles = 0 then force
    else if node.is_leaf ∧ node.particle_id = par.id then force
    else
      let dx := node.com.x - par.loc.x
      let dy := node.com.y - par.loc.y
      let dz := node.com.z - par.loc.z
      let dist_sq := dx * dx + dy * dy + dz * dz +
        t.softening * t.softening
      let dist := sq dist_sq
      let size := node.half_size * 2
      if node.is_leaf ∨ size / dist < t.theta then
        let force_mag := t.G * node.mass / dist_sq
        ⟨force.x + force_mag * dx / dist,
         force.y + force_mag * dy / dist,
         force.z + force_mag * dz / dist⟩
      else
        (List.finRange 8).foldl
          (fun f j =>
            match node.children j with
            | none => f
            | some c => Octree_calculate_force sq t fuel c par f)
          force

/-- FLT_MAX, seeding the gravity bounding-box scan. -/
def fltMax : ℚ := (2 - (1/2) ^ 23) * 2 ^ 127

/-- Bounding box accumulator of apply_barnes_hut_gravity. -/
structure BBox where
  minX : ℚ
  minY : ℚ
  minZ : ℚ
  maxX : ℚ
  maxY : ℚ
  maxZ : ℚ
  deriving DecidableEq, Inhabited

/-- Bounding-box pass of apply_barnes_hut_gravity over alive particles
(state >= 3). -/
def gravity_bbox (parlist : List Particle) : BBox :=
  parlist.foldl
    (fun b p =>
      if 3 ≤ p.state then
        { minX := if p.loc.x < b.minX then p.loc.x else b.minX,
          maxX := if b.maxX < p.loc.x then p.loc.x else b.maxX,
          minY := if p.loc.y < b.minY then p.loc.y else b.minY,
          maxY := if b.maxY < p.loc.y then p.loc.y else b.maxY,
          minZ := if p.loc.z < b.minZ then p.loc.z else b.minZ,
          maxZ := if b.maxZ < p.loc.z then p.loc.z else b.maxZ }
      else b)
    ⟨fltMax, fltMax, fltMax, -fltMax, -fltMax, -fltMax⟩

/-- Per-step gravity parameters (the module globals gravity_G,
gravity_theta, gravity_softening and deltatime). -/
structure GravityConfig where
  G : ℚ
  theta : ℚ
  softening : ℚ
  deltatime : ℚ
  deriving DecidableEq, Inhabited

/-- apply_barnes_hut_gravity from simulate.pyx: build the bounding cube,
create the octree with a pool of 2x the particle count, insert the alive
positive-mass particles serially, then add force * dt to the velocity of
every alive particle (the parallel force loop writes only the velocity of
its own particle, hence a map). -/
def apply_barnes_hut_gravity (sq : ℚ → ℚ) (cfg : GravityConfig)
    (parlist : List Particle) : List Particle :=
  let b := gravity_bbox parlist
  let cx := (b.minX + b.maxX) * (1/2)
  let cy := (b.minY + b.maxY) * (1/2)
  let cz := (b.minZ + b.maxZ) * (1/2)
  let hs0 := b.maxX - b.minX
  let hs1 := if hs0 < b.maxY - b.minY then b.maxY - b.minY else hs0
  let hs2 := if hs1 < b.maxZ - b.minZ then b.maxZ - b.minZ else hs1
  let half_size := hs2 * (1/2) + 1
  let tree0 := Octree_create parlist.length cfg.theta cfg.G cfg.softening
  match allocate_node tree0 with
  | none => parlist
  | some (tree1, root) =>
    let tree2 := setNode tree1 root
      { getNode tree1 root with center := ⟨cx, cy, cz⟩,
                                half_size := half_size }
    let tree3 := parlist.foldl
      (fun t p =>
        if 3 ≤ p.state ∧ 0 < p.mass then
          Octree_insert parlist t root p cx cy cz half_size 0
        else t)
      tree2
    parlist.map (fun p =>
      if 3 ≤ p.state then
        let force := Octree_calculate_force sq tree3
          (tree3.node_pool.length + 1) root p ⟨0, 0, 0⟩
        { p with vel := ⟨p.vel.x + force.x * cfg.deltatime,
                         p.vel.y + force.y * cfg.deltatime,
                         p.vel.z + force.z * cfg.deltatime⟩ }
      else p)

/- ============================================================
   Step orchestration around the seeder (simulate, lines 569-575)
   ============================================================ -/

/-- The per-step globals consulted by the gravity/seeding block of
simulate. -/
structure SimConfig where
  gravity_enabled : Bool
  initial_rotation_strength : ℚ
  initial_rotation_falloff : ℚ
  gravity : GravityConfig
  deriving DecidableEq, Inhabited

/-- The simulate state the seeding logic can observe: the particle store
and the module-global initial_rotation_applied latch (0 at module load). -/
structure SimState where
  initial_rotation_applied : Bool
  parlist : List Particle
  deriving DecidableEq, Inhabited

/-- One simulate call, restricted to the phases that interact with the
seeding latch (simulate.pyx lines 569-575).  upd stands for update()
(update.pyx, a caller outside src), modelled from the spec as host-data
marshalling that never touches the latch; rest stands for the collision,
link-solving and integration phases, which neither read nor write the
latch.  The returned Bool records whether apply_initial_rotation_once ran
during this call. -/
def simulate_step (sq : ℚ → ℚ) (upd rest : List Particle → List Particle)
    (cfg : SimConfig) (s : SimState) : SimState × Bool :=
  let ps0 := upd s.parlist
  let ps1 := if cfg.gravity_enabled then
      apply_barnes_hut_gravity sq cfg.gravity ps0
    else ps0
  if cfg.gravity_enabled ∧ 0 < cfg.initial_rotation_strength ∧
      s.initial_rotation_applied = false then
    ({ initial_rotation_applied := true,
       parlist := rest (apply_initial_rotation_once sq cfg.gravity.G
           cfg.initial_rotation_strength cfg.initial_rotation_falloff ps1) },
     true)
  else
    ({ s with parlist := rest ps1 }, false)

/-- A run of successive simulate calls, one config per call, recording for
each call whether the seeder was invoked. -/
def simulate_run (sq : ℚ → ℚ) (upd rest : List Particle → List Particle)
    (cfgs : List SimConfig) (s : SimState) : SimState × List Bool :=
  match cfgs with
  | [] => (s, [])
  | c :: cs =>
    let r1 := simulate_step sq upd rest c s
    let r2 := simulate_run sq upd rest cs r1.1
    (r2.1, r1.2 :: r2.2)

/-- The seeding guard of simulate line 574: gravity enabled and a strictly
positive configured rotation strength. -/
def seed_trigger (c : SimConfig) : Prop :=
  c.gravity_enabled = true ∧ 0 < c.initial_rotation_strength

instance (c : SimConfig) : Decidable (seed_trigger c) := by
  unfold seed_trigger
  infer_instance

theorem simulate_step_of_applied (sq : ℚ → ℚ)
    (upd rest : List Particle → List Particle) (cfg : SimConfig)
    (s : SimState) (h : s.initial_rotation_applied = true) :
    (simulate_step sq upd rest cfg s).2 = false ∧
    (simulate_step sq upd rest cfg s).1.initial_rotation_applied = true := by
  simp [simulate_step, h]

theorem simulate_step_of_no_trigger (sq : ℚ → ℚ)
    (upd rest : List Particle → List Particle) (cfg : SimConfig)
    (s : SimState) (h : ¬ seed_trigger cfg) :
    (simulate_step sq upd rest cfg s).2 = false ∧
    (simulate_step sq upd rest cfg s).1.initial_rotation_applied =
      s.initial_rotation_applied := by
  rw [seed_trigger, not_and_or] at h
  rcases h with h | h
  · have hb : cfg.gravity_enabled = false := by
      cases hg : cfg.gravity_enabled
      · rfl
      · exact absurd hg h
    simp [simulate_step, hb]
  · simp [simulate_step, h]

theorem simulate_step_fires (sq : ℚ → ℚ)
    (upd rest : List Particle → List Particle) (cfg : SimConfig)
    (s : SimState) (h : seed_trigger cfg)
    (ha : s.initial_rotation_applied = false) :
    simulate_step sq upd rest cfg s =
      ({ initial_rotation_applied := true,
         parlist := rest (apply_initial_rotation_once sq cfg.gravity.G
             cfg.initial_rotation_strength cfg.initial_rotation_falloff
             (apply_barnes_hut_gravity sq cfg.gravity (upd s.parlist))) },
       true) := by
  obtain ⟨h1, h2⟩ := h
  simp [simulate_step, h1, h2, ha]

theorem simulate_run_of_applied (sq : ℚ → ℚ)
    (upd rest : List Particle → List Particle) (cfgs : List SimConfig) :
    ∀ s : SimState, s.initial_rotation_applied = true →
      (simulate_run sq upd rest cfgs s).2.count true = 0 ∧
      (simulate_run sq upd rest cfgs s).1.initial_rotation_applied =
        true := by
  induction cfgs with
  | nil => intro s h; simpa [simulate_run] using h
  | cons c cs ih =>
    intro s h
    have h1 := simulate_step_of_applied sq upd rest c s h
    have h2 := ih (simulate_step sq upd rest c s).1 h1.2
    simp [simulate_run, h1.1, h2.1, h2.2]

theorem simulate_run_count_le_one (sq : ℚ → ℚ)
    (upd rest : List Particle → List Particle) (cfgs : List SimConfig) :
    ∀ s : SimState, (simulate_run sq upd rest cfgs s).2.count true ≤ 1 := by
  induction cfgs with
  | nil => intro s; simp [simulate_run]
  | cons c cs ih =>
    intro s
    by_cases ha : s.initial_rotation_applied = true
    · have h1 := simulate_step_of_applied sq upd rest c s ha
      have h2 := simulate_run_of_applied sq upd rest cs
        (simulate_step sq upd rest c s).1 h1.2
      simp [simulate_run, h1.1, h2.1]
    · have ha2 : s.initial_rotation_applied = false := by
        cases hb : s.initial_rotation_applied
        · rfl
        · exact absurd hb ha
      by_cases ht : seed_trigger c
      · rw [simulate_run]
        rw [simulate_step_fires sq upd rest c s ht ha2]
        have h2 := simulate_run_of_applied sq upd rest cs
          ({ initial_rotation_applied := true,
             parlist := rest (apply_initial_rotation_once sq c.gravity.G
                 c.initial_rotation_strength c.initial_rotation_falloff
                 (apply_barnes_hut_gravity sq c.gravity
                   (upd s.parlist))) } : SimState) rfl
        simp [h2.1]
      · have h1 := simulate_step_of_no_trigger sq upd rest c s ht
        have h2 := ih (simulate_step sq upd rest c s).1
        simp [simulate_run, h1.1, h2]

/-- C2 (amended): rotation seeding runs at most once per simulation
lifetime.  On the first simulate call whose configuration has gravity
enabled and a strictly positive rotation strength (the code tests
strength > 0, not merely nonzero), the seeder assigns the tangential
velocities and latches the already-applied flag; over any run the seeder
is invoked at most once, no matter how many further steps run. -/
theorem C2_rotation_seeding_once (sq : ℚ → ℚ)
    (upd rest : List Particle → List Particle) (cfgs : List SimConfig)
    (s0 : SimState) (h0 : s0.initial_rotation_applied = false) :
    ((simulate_run sq upd rest cfgs s0).2.count true ≤ 1) ∧
    (∀ cfg : SimConfig, ∀ s : SimState,
      s.initial_rotation_applied = false → seed_trigger cfg →
      simulate_step sq upd rest cfg s =
        ({ initial_rotation_applied := true,
           parlist := rest (apply_initial_rotation_once sq cfg.gravity.G
               cfg.initial_rotation_strength cfg.initial_rotation_falloff
               (apply_barnes_hut_gravity sq cfg.gravity (upd s.parlist))) },
         true)) ∧
    (∀ k : Nat, ∀ c : SimConfig, cfgs.get? k = some c →
      (∀ j, j < k → ∀ cj, cfgs.get? j = some cj → ¬ seed_trigger cj) →
      seed_trigger c →
      (simulate_run sq upd rest cfgs s0).2.get? k = some true) := by
  refine ⟨simulate_run_count_le_one sq upd rest cfgs s0,
    fun cfg s hs ht => simulate_step_fires sq upd rest cfg s ht hs, ?_⟩
  induction cfgs generalizing s0 with
  | nil => intro k c hk; simp at hk
  | cons c0 cs ih =>
    intro k c hk hprev ht
    cases k with
    | zero =>
      simp only [List.get?_cons_zero, Option.some.injEq] at hk
      subst hk
      have hf := simulate_step_fires sq upd rest c0 s0 ht h0
      simp [simulate_run, hf]
    | succ k =>
      have hc0 : ¬ seed_trigger c0 := hprev 0 (Nat.succ_pos k) c0 rfl
      have h1 := simulate_step_of_no_trigger sq upd rest c0 s0 hc0
      have h2 : (simulate_step sq upd rest c0 s0).1.initial_rotation_applied
          = false := by rw [h1.2, h0]
      have h3 := ih (simulate_step sq upd rest c0 s0).1 h2 k c
        (by simpa using hk)
        (fun j hj cj hcj => hprev (j + 1) (by omega) cj (by simpa using hcj))
        ht
      simpa [simulate_run] using h3

/-- C2 as frozen is violated on a nonzero negative strength: with gravity
enabled and rotation strength -1 (nonzero), the first simulate call never
invokes the seeder and leaves the flag clear, because the code guard is
strength > 0. -/
theorem C2_counterexample :
    ((-1 : ℚ) ≠ 0) ∧
    (simulate_run qsqrt id id
        [⟨true, -1, 1/2, ⟨1, 1/2, 1/100, 1⟩⟩]
        ⟨false, [⟨0, ⟨0, 0, 0⟩, ⟨0, 0, 0⟩, 1, 1, 3, false, []⟩]⟩).2 =
      [false] ∧
    (simulate_run qsqrt id id
        [⟨true, -1, 1/2, ⟨1, 1/2, 1/100, 1⟩⟩]
        ⟨false, [⟨0, ⟨0, 0, 0⟩, ⟨0, 0, 0⟩, 1, 1, 3, false,
          []⟩]⟩).1.initial_rotation_applied = false := by
  refine ⟨by norm_num, ?_, ?_⟩ <;> decide

theorem C2_witness :
    ((⟨false, [⟨0, ⟨3, 4, 0⟩, ⟨0, 0, 0⟩, 1, 1, 3, false, []⟩]⟩ :
        SimState).initial_rotation_applied = false) ∧
    (simulate_run qsqrt id id [⟨true, 2, 0, ⟨1, 1/2, 0, 1⟩⟩]
        ⟨false, [⟨0, ⟨3, 4, 0⟩, ⟨0, 0, 0⟩, 1, 1, 3, false,
          []⟩]⟩).2.get? 0 = some true := by
  refine ⟨rfl, ?_⟩
  exact (C2_rotation_seeding_once qsqrt id id
      [⟨true, 2, 0, ⟨1, 1/2, 0, 1⟩⟩]
      ⟨false, [⟨0, ⟨3, 4, 0⟩, ⟨0, 0, 0⟩, 1, 1, 3, false, []⟩]⟩ rfl).2.2 0
      ⟨true, 2, 0, ⟨1, 1/2, 0, 1⟩⟩ rfl
      (fun j hj cj hcj => absurd hj (by omega)) ⟨rfl, by norm_num⟩

/- Basic facts about pool updates. -/

theorem setNode_next_free (t : Octree) (i : Nat) (n : OctreeNode) :
    (setNode t i n).next_free = t.next_free := rfl

theorem setNode_pool_size (t : Octree) (i : Nat) (n : OctreeNode) :
    (setNode t i n).pool_size = t.pool_size := rfl

theorem setNode_length (t : Octree) (i : Nat) (n : OctreeNode) :
    (setNode t i n).node_pool.length = t.node_pool.length := by
  simp [setNode]

theorem allocate_node_of_exhausted (t : Octree)
    (h : t.pool_size ≤ t.next_free) : allocate_node t = none := by
  simp [allocate_node, h]

/-- Shape equality used to state that an insertion allocated nothing. -/
def sameShape (a b : Octree) : Prop :=
  a.next_free = b.next_free ∧ a.node_pool.length = b.node_pool.length ∧
  a.pool_size = b.pool_size

theorem sameShape_refl (a : Octree) : sameShape a a := ⟨rfl, rfl, rfl⟩

theorem sameShape_trans {a b c : Octree} (h1 : sameShape a b)
    (h2 : sameShape b c) : sameShape a c :=
  ⟨h1.1.trans h2.1, h1.2.1.trans h2.2.1, h1.2.2.trans h2.2.2⟩

theorem sameShape_setNode (t : Octree) (i : Nat) (n : OctreeNode) :
    sameShape (setNode t i n) t := ⟨rfl, by simp [setNode], rfl⟩

theorem insert_exhausted_both :
    ∀ d : Nat,
      (∀ parlist : List Particle, ∀ t : Octree, ∀ idx : Nat,
        ∀ par : Particle, ∀ cx cy cz hs : ℚ, ∀ depth : Nat,
        51 - depth ≤ d → t.pool_size ≤ t.next_free →
        sameShape (Octree_insert parlist t idx par cx cy cz hs depth) t) ∧
      (∀ parlist : List Particle, ∀ t : Octree, ∀ idx : Nat,
        ∀ q : Particle, ∀ cx cy cz nh : ℚ, ∀ cd : Nat,
        51 - cd ≤ d → t.pool_size ≤ t.next_free →
        sameShape (insert_into_child parlist t idx q cx cy cz nh cd).1
          t) := by
  intro d
  induction d with
  | zero =>
    constructor
    · intro parlist t idx par cx cy cz hs depth hd hex
      have h50 : 50 < depth := by omega
      rw [Octree_insert, dif_pos h50]
      exact sameShape_refl t
    · intro parlist t idx q cx cy cz nh cd hd hex
      rw [insert_into_child]
      lift_lets
      extract_lets o
      split
      · split
        · exact sameShape_refl t
        · rename_i t1 c heq
          rw [allocate_node_of_exhausted t hex] at heq
          simp at heq
      · rename_i c heq
        lift_lets
        extract_lets ccn
        have h50 : 50 < cd := by omega
        rw [Octree_insert, dif_pos h50]
        exact sameShape_refl t
  | succ d ih =>
    have hA : ∀ parlist : List Particle, ∀ t : Octree, ∀ idx : Nat,
        ∀ par : Particle, ∀ cx cy cz hs : ℚ, ∀ depth : Nat,
        51 - depth ≤ d + 1 → t.pool_size ≤ t.next_free →
        sameShape (Octree_insert parlist t idx par cx cy cz hs depth) t := by
      intro parlist t idx par cx cy cz hs depth hd hex
      by_cases h50 : 50 < depth
      · rw [Octree_insert, dif_pos h50]
        exact sameShape_refl t
      rw [Octree_insert, dif_neg h50]
      lift_lets
      extract_lets new_half n0 total_mass n1 n2 n3 tB0 existing r src phaseB
      have hd2 : 51 - (depth + 1) ≤ d := by omega
      have hr : sameShape r.1 tB0 :=
        ih.2 parlist tB0 idx existing cx cy cz new_half (depth + 1) hd2 hex
      have htB0 : sameShape tB0 t := sameShape_setNode t idx n3
      have hP : sameShape phaseB.1 t := by
        unfold_let phaseB
        split
        · split
          · exact sameShape_trans hr htB0
          · exact sameShape_trans (sameShape_setNode r.1 idx _)
              (sameShape_trans hr htB0)
        · exact sameShape_setNode t idx n2
      have hex2 : phaseB.1.pool_size ≤ phaseB.1.next_free := by
        rw [hP.2.2, hP.1]; exact hex
      split
      · exact sameShape_setNode _ _ _
      · split
        · exact hP
        · exact sameShape_trans
            (ih.2 parlist phaseB.1 idx par cx cy cz new_half (depth + 1)
              hd2 hex2) hP
    refine ⟨hA, ?_⟩
    intro parlist t idx q cx cy cz nh cd hd hex
    rw [insert_into_child]
    lift_lets
    extract_lets o
    split
    · split
      · exact sameShape_refl t
      · rename_i t1 c heq
        rw [allocate_node_of_exhausted t hex] at heq
        simp at heq
    · rename_i c heq
      lift_lets
      extract_lets ccn
      exact hA parlist t c q ccn.center.x ccn.center.y ccn.center.z nh cd
        hd hex

/-- C5: Octree_create sizes the arena at 2x the particle count; when the
arena is exhausted, allocate_node returns NULL and Octree_insert returns
normally (it is a total function into Octree with no error channel)
without allocating anything: the pool, its capacity and next_free are
unchanged, leaving the tree under-populated.  Construction neither aborts
nor reports the exhaustion to the caller. -/
theorem C5_arena_exhaustion (parlist : List Particle) (t : Octree)
    (idx : Nat) (par : Particle) (cx cy cz hs : ℚ) (depth : Nat)
    (hex : t.pool_size ≤ t.next_free) :
    (∀ n : Nat, ∀ theta G softening : ℚ,
      (Octree_create n theta G softening).pool_size = n * 2) ∧
    allocate_node t = none ∧
    (Octree_insert parlist t idx par cx cy cz hs depth).next_free =
      t.next_free ∧
    (Octree_insert parlist t idx par cx cy cz hs depth).node_pool.length =
      t.node_pool.length ∧
    (Octree_insert parlist t idx par cx cy cz hs depth).pool_size =
      t.pool_size := by
  have h := (insert_exhausted_both (51 - depth)).1 parlist t idx par
    cx cy cz hs depth le_rfl hex
  exact ⟨fun n theta G softening => rfl, allocate_node_of_exhausted t hex,
    h.1, h.2.1, h.2.2⟩

theorem C5_witness :
    ((⟨[⟨⟨0, 0, 0⟩, 1, 1, ⟨0, 0, 0⟩, 0, true, 1, fun _ => none⟩], 1, 1,
        1/2, 1, 0⟩ : Octree).pool_size ≤
      (⟨[⟨⟨0, 0, 0⟩, 1, 1, ⟨0, 0, 0⟩, 0, true, 1, fun _ => none⟩], 1, 1,
        1/2, 1, 0⟩ : Octree).next_free) ∧
    ((∀ n : Nat, ∀ theta G softening : ℚ,
      (Octree_create n theta G softening).pool_size = n * 2) ∧
    allocate_node
      (⟨[⟨⟨0, 0, 0⟩, 1, 1, ⟨0, 0, 0⟩, 0, true, 1, fun _ => none⟩], 1, 1,
        1/2, 1, 0⟩ : Octree) = none ∧
    (Octree_insert
      [⟨0, ⟨0, 0, 0⟩, ⟨0, 0, 0⟩, 1, 1, 3, false, []⟩,
       ⟨1, ⟨1/2, 0, 0⟩, ⟨0, 0, 0⟩, 1, 1, 3, false, []⟩]
      (⟨[⟨⟨0, 0, 0⟩, 1, 1, ⟨0, 0, 0⟩, 0, true, 1, fun _ => none⟩], 1, 1,
        1/2, 1, 0⟩ : Octree) 0
      ⟨1, ⟨1/2, 0, 0⟩, ⟨0, 0, 0⟩, 1, 1, 3, false, []⟩
      0 0 0 1 0).next_free =
      (⟨[⟨⟨0, 0, 0⟩, 1, 1, ⟨0, 0, 0⟩, 0, true, 1, fun _ => none⟩], 1, 1,
        1/2, 1, 0⟩ : Octree).next_free ∧
    (Octree_insert
      [⟨0, ⟨0, 0, 0⟩, ⟨0, 0, 0⟩, 1, 1, 3, false, []⟩,
       ⟨1, ⟨1/2, 0, 0⟩, ⟨0, 0, 0⟩, 1, 1, 3, false, []⟩]
      (⟨[⟨⟨0, 0, 0⟩, 1, 1, ⟨0, 0, 0⟩, 0, true, 1, fun _ => none⟩], 1, 1,
        1/2, 1, 0⟩ : Octree) 0
      ⟨1, ⟨1/2, 0, 0⟩, ⟨0, 0, 0⟩, 1, 1, 3, false, []⟩
      0 0 0 1 0).node_pool.length =
      (⟨[⟨⟨0, 0, 0⟩, 1, 1, ⟨0, 0, 0⟩, 0, true, 1, fun _ => none⟩], 1, 1,
        1/2, 1, 0⟩ : Octree).node_pool.length ∧
    (Octree_insert
      [⟨0, ⟨0, 0, 0⟩, ⟨0, 0, 0⟩, 1, 1, 3, false, []⟩,
       ⟨1, ⟨1/2, 0, 0⟩, ⟨0, 0, 0⟩, 1, 1, 3, false, []⟩]
      (⟨[⟨⟨0, 0, 0⟩, 1, 1, ⟨0, 0, 0⟩, 0, true, 1, fun _ => none⟩], 1, 1,
        1/2, 1, 0⟩ : Octree) 0
      ⟨1, ⟨1/2, 0, 0⟩, ⟨0, 0, 0⟩, 1, 1, 3, false, []⟩
      0 0 0 1 0).pool_size =
      (⟨[⟨⟨0, 0, 0⟩, 1, 1, ⟨0, 0, 0⟩, 0, true, 1, fun _ => none⟩], 1, 1,
        1/2, 1, 0⟩ : Octree).pool_size) :=
  ⟨by decide,
   C5_arena_exhaustion
    [⟨0, ⟨0, 0, 0⟩, ⟨0, 0, 0⟩, 1, 1, 3, false, []⟩,
     ⟨1, ⟨1/2, 0, 0⟩, ⟨0, 0, 0⟩, 1, 1, 3, false, []⟩]
    (⟨[⟨⟨0, 0, 0⟩, 1, 1, ⟨0, 0, 0⟩, 0, true, 1, fun _ => none⟩], 1, 1,
      1/2, 1, 0⟩ : Octree) 0
    ⟨1, ⟨1/2, 0, 0⟩, ⟨0, 0, 0⟩, 1, 1, 3, false, []⟩
    0 0 0 1 0 (by decide)⟩

theorem C1_witness :
    ((0 : ℚ) <
      (⟨0, ⟨3, 4, 0⟩, ⟨0, 0, 0⟩, 1, 1, 3, false, []⟩ : Particle).mass) ∧
    (1/1000 ≤ planar_radius qsqrt
      ⟨0, ⟨3, 4, 0⟩, ⟨0, 0, 0⟩, 1, 1, 3, false, []⟩) ∧
    (apply_initial_rotation_once qsqrt 10 3 0
        [⟨0, ⟨3, 4, 0⟩, ⟨0, 0, 0⟩, 1, 1, 3, false, []⟩,
         ⟨1, ⟨3/5, 4/5, 0⟩, ⟨0, 0, 0⟩, 1, 1, 3, false, []⟩]).get? 0 =
      some ⟨0, ⟨3, 4, 0⟩, ⟨-24/5, 18/5, 0⟩, 1, 1, 3, false, []⟩ := by
  refine ⟨by norm_num, by with_unfolding_all decide, ?_⟩
  have h := (C1_rotation_seeder qsqrt 10 3 0
      [⟨0, ⟨3, 4, 0⟩, ⟨0, 0, 0⟩, 1, 1, 3, false, []⟩,
       ⟨1, ⟨3/5, 4/5, 0⟩, ⟨0, 0, 0⟩, 1, 1, 3, false, []⟩] 0
      ⟨0, ⟨3, 4, 0⟩, ⟨0, 0, 0⟩, 1, 1, 3, false, []⟩ rfl
      (by norm_num)).1 (by with_unfolding_all decide)
  rw [h]
  with_unfolding_all decide

/-- The softened squared distance computed by Octree_calculate_force for
a node and a querying particle. -/
def bh_dist_sq (t : Octree) (idx : Nat) (par : Particle) : ℚ :=
  ((getNode t idx).com.x - par.loc.x) * ((getNode t idx).com.x - par.loc.x) +
  ((getNode t idx).com.y - par.loc.y) * ((getNode t idx).com.y - par.loc.y) +
  ((getNode t idx).com.z - par.loc.z) * ((getNode t idx).com.z - par.loc.z) +
  t.softening * t.softening

/-- C3: one step of the Barnes-Hut walk with fuel left.  The leaf holding
the querying particle itself contributes nothing; at a leaf or a node
with size / dist < theta the node acts as a single point mass at its
center of mass, adding G * mass * (com - p) / (dist_sq * sqrt dist_sq)
to the accumulator, i.e. the softened inverse-three-halves-power law
G * mass * (com - p) / (d^2 + eps^2)^(3/2); at every other node the walk
recurses into exactly the non-empty children. -/
theorem C3_force_walk (sq : ℚ → ℚ) (t : Octree) (fuel : Nat) (idx : Nat)
    (par : Particle) (force : Vec3) :
    ((getNode t idx).is_leaf = true ∧ (getNode t idx).particle_id = par.id →
      Octree_calculate_force sq t (fuel + 1) idx par force = force) ∧
    ((getNode t idx).num_particles ≠ 0 →
      ¬((getNode t idx).is_leaf = true ∧
        (getNode t idx).particle_id = par.id) →
      ((getNode t idx).is_leaf = true ∨
        (getNode t idx).half_size * 2 / sq (bh_dist_sq t idx par) <
          t.theta) →
      Octree_calculate_force sq t (fuel + 1) idx par force =
        ⟨force.x + t.G * (getNode t idx).mass *
            ((getNode t idx).com.x - par.loc.x) /
            (bh_dist_sq t idx par * sq (bh_dist_sq t idx par)),
         force.y + t.G * (getNode t idx).mass *
            ((getNode t idx).com.y - par.loc.y) /
            (bh_dist_sq t idx par * sq (bh_dist_sq t idx par)),
         force.z + t.G * (getNode t idx).mass *
            ((getNode t idx).com.z - par.loc.z) /
            (bh_dist_sq t idx par * sq (bh_dist_sq t idx par))⟩) ∧
    ((getNode t idx).num_particles ≠ 0 →
      (getNode t idx).is_leaf = false →
      ¬((getNode t idx).half_size * 2 / sq (bh_dist_sq t idx par) <
        t.theta) →
      Octree_calculate_force sq t (fuel + 1) idx par force =
        (List.finRange 8).foldl
          (fun f j =>
            match (getNode t idx).children j with
            | none => f
            | some c => Octree_calculate_force sq t fuel c par f)
          force) := by
  refine ⟨?_, ?_, ?_⟩
  · intro h
    by_cases hn : (getNode t idx).num_particles = 0
    · simp [Octree_calculate_force, hn]
    · simp [Octree_calculate_force, hn, h.1, h.2]
  · intro hn hself hcrit
    rw [Octree_calculate_force]
    simp only [bh_dist_sq] at hcrit ⊢
    rw [if_neg hn, if_neg hself, if_pos hcrit]
    simp only [Vec3.mk.injEq]
    refine ⟨by rw [div_mul_eq_mul_div, div_div],
      by rw [div_mul_eq_mul_div, div_div],
      by rw [div_mul_eq_mul_div, div_div]⟩
  · intro hn hleaf hratio
    rw [Octree_calculate_force]
    simp only [bh_dist_sq] at hratio
    rw [if_neg hn]
    have hself : ¬((getNode t idx).is_leaf = true ∧
        (getNode t idx).particle_id = par.id) := by
      rw [hleaf]; simp
    rw [if_neg hself]
    have hcond : ¬((getNode t idx).is_leaf = true ∨
        (getNode t idx).half_size * 2 /
          sq (((getNode t idx).com.x - par.loc.x) *
                ((getNode t idx).com.x - par.loc.x) +
              ((getNode t idx).com.y - par.loc.y) *
                ((getNode t idx).com.y - par.loc.y) +
              ((getNode t idx).com.z - par.loc.z) *
                ((getNode t idx).com.z - par.loc.z) +
              t.softening * t.softening) < t.theta) := by
      rw [hleaf]; simpa using hratio
    rw [if_neg hcond]

theorem C3_witness :
    (((getNode ⟨[⟨⟨0, 0, 0⟩, 1, 1, ⟨0, 0, 0⟩, 7, true, 1, fun _ => none⟩],
          2, 1, 1/2, 10, 0⟩ 0).is_leaf = true ∧
      (getNode ⟨[⟨⟨0, 0, 0⟩, 1, 1, ⟨0, 0, 0⟩, 7, true, 1, fun _ => none⟩],
          2, 1, 1/2, 10, 0⟩ 0).particle_id =
        (⟨7, ⟨0, 0, 0⟩, ⟨0, 0, 0⟩, 1, 1, 3, false, []⟩ : Particle).id) ∧
    Octree_calculate_force qsqrt
      ⟨[⟨⟨0, 0, 0⟩, 1, 1, ⟨0, 0, 0⟩, 7, true, 1, fun _ => none⟩],
        2, 1, 1/2, 10, 0⟩ 5 0
      ⟨7, ⟨0, 0, 0⟩, ⟨0, 0, 0⟩, 1, 1, 3, false, []⟩ ⟨1, 2, 3⟩ =
      ⟨1, 2, 3⟩) ∧
    (Octree_calculate_force qsqrt
      ⟨[⟨⟨0, 0, 0⟩, 1, 2, ⟨3, 4, 0⟩, 0, true, 1, fun _ => none⟩],
        2, 1, 1/2, 10, 0⟩ 5 0
      ⟨1, ⟨0, 0, 0⟩, ⟨0, 0, 0⟩, 1, 0, 3, false, []⟩ ⟨0, 0, 0⟩ =
      ⟨12/25, 16/25, 0⟩) ∧
    (Octree_calculate_force qsqrt
      ⟨[⟨⟨0, 0, 0⟩, 2, 2, ⟨3, 4, 0⟩, -1, false, 2,
          fun j => if j = 0 then some 1 else none⟩,
        ⟨⟨1, 1, 0⟩, 1, 2, ⟨3, 4, 0⟩, 0, true, 1, fun _ => none⟩],
        4, 2, 0, 10, 0⟩ 2 0
      ⟨1, ⟨0, 0, 0⟩, ⟨0, 0, 0⟩, 1, 0, 3, false, []⟩ ⟨0, 0, 0⟩ =
      ⟨12/25, 16/25, 0⟩) := by
  refine ⟨⟨⟨rfl, rfl⟩, ?_⟩, ?_, ?_⟩
  · exact (C3_force_walk qsqrt
      ⟨[⟨⟨0, 0, 0⟩, 1, 1, ⟨0, 0, 0⟩, 7, true, 1, fun _ => none⟩],
        2, 1, 1/2, 10, 0⟩ 4 0
      ⟨7, ⟨0, 0, 0⟩, ⟨0, 0, 0⟩, 1, 1, 3, false, []⟩ ⟨1, 2, 3⟩).1 ⟨rfl, rfl⟩
  · have h := (C3_force_walk qsqrt
      ⟨[⟨⟨0, 0, 0⟩, 1, 2, ⟨3, 4, 0⟩, 0, true, 1, fun _ => none⟩],
        2, 1, 1/2, 10, 0⟩ 4 0
      ⟨1, ⟨0, 0, 0⟩, ⟨0, 0, 0⟩, 1, 0, 3, false, []⟩ ⟨0, 0, 0⟩).2.1
      (by decide) (by decide) (Or.inl rfl)
    rw [h]
    with_unfolding_all decide
  · have h := (C3_force_walk qsqrt
      ⟨[⟨⟨0, 0, 0⟩, 2, 2, ⟨3, 4, 0⟩, -1, false, 2,
          fun j => if j = 0 then some 1 else none⟩,
        ⟨⟨1, 1, 0⟩, 1, 2, ⟨3, 4, 0⟩, 0, true, 1, fun _ => none⟩],
        4, 2, 0, 10, 0⟩ 1 0
      ⟨1, ⟨0, 0, 0⟩, ⟨0, 0, 0⟩, 1, 0, 3, false, []⟩ ⟨0, 0, 0⟩).2.2
      (by decide) rfl (by with_unfolding_all decide)
    rw [h]
    with_unfolding_all decide

/- Pool access lemmas for the insertion analysis. -/

theorem getNode_setNode_self (t : Octree) (i : Nat) (n : OctreeNode)
    (h : i < t.node_pool.length) : getNode (setNode t i n) i = n := by
  simp [getNode, setNode, List.getD_eq_getElem?_getD,
    List.getElem?_set_eq_of_lt _ h]

theorem getNode_setNode_ne (t : Octree) (i j : Nat) (n : OctreeNode)
    (h : i ≠ j) : getNode (setNode t i n) j = getNode t j := by
  simp [getNode, setNode, List.getD_eq_getElem?_getD,
    List.getElem?_set_ne h]

theorem allocate_node_spec (t t1 : Octree) (c : Nat)
    (h : allocate_node t = some (t1, c)) :
    c = t.next_free ∧ t1.node_pool = t.node_pool ++ [blankNode] ∧
    t1.next_free = t.next_free + 1 ∧ t1.pool_size = t.pool_size := by
  unfold allocate_node at h
  split at h
  · cases h
  · rw [Option.some.injEq, Prod.mk.injEq] at h
    obtain ⟨h1, h2⟩ := h
    subst h1
    subst h2
    exact ⟨rfl, rfl, rfl, rfl⟩

theorem allocate_node_length (t t1 : Octree) (c : Nat)
    (h : allocate_node t = some (t1, c)) :
    t1.node_pool.length = t.node_pool.length + 1 := by
  obtain ⟨-, hpool, -, -⟩ := allocate_node_spec t t1 c h
  simp [hpool]

theorem getNode_alloc_old (t t1 : Octree) (c : Nat)
    (h : allocate_node t = some (t1, c)) (j : Nat)
    (hj : j < t.node_pool.length) : getNode t1 j = getNode t j := by
  obtain ⟨-, hpool, -, -⟩ := allocate_node_spec t t1 c h
  simp [getNode, hpool, List.getD_eq_getElem?_getD,
    List.getElem?_append_left hj]

theorem getNode_alloc_new (t t1 : Octree) (c : Nat)
    (h : allocate_node t = some (t1, c))
    (hlen : t.node_pool.length = t.next_free) : getNode t1 c = blankNode := by
  obtain ⟨hc, hpool, -, -⟩ := allocate_node_spec t t1 c h
  subst hc
  rw [← hlen]
  simp [getNode, hpool, List.getD_eq_getElem?_getD,
    List.getElem?_concat_length]

/-- Per-child well-formedness: a stored child pointer goes strictly
forward in the arena and stays inside the allocated region. -/
def childOk (k len : Nat) : Option Nat → Prop
  | none => True
  | some c => k < c ∧ c < len

instance (k len : Nat) (o : Option Nat) : Decidable (childOk k len o) := by
  cases o with
  | none => exact isTrue trivial
  | some c => exact inferInstanceAs (Decidable (_ ∧ _))

theorem childOk_mono {k len len2 : Nat} (h : len ≤ len2) (o : Option Nat)
    (hc : childOk k len o) : childOk k len2 o := by
  cases o with
  | none => trivial
  | some c => exact ⟨hc.1, lt_of_lt_of_le hc.2 h⟩

/-- Well-formed arena tree: the pool is exactly the allocated region and
every stored child pointer goes strictly forward, which is what the
allocation order of Octree_insert guarantees. -/
def OctWF (t : Octree) : Prop :=
  t.node_pool.length = t.next_free ∧
  ∀ k, k < t.node_pool.length → ∀ j : Fin 8,
    childOk k t.node_pool.length ((getNode t k).children j)

instance (t : Octree) : Decidable (OctWF t) := by
  unfold OctWF
  infer_instance

theorem OctWF_setNode (t : Octree) (i : Nat) (n : OctreeNode)
    (hwf : OctWF t)
    (hch : ∀ j : Fin 8, childOk i t.node_pool.length (n.children j)) :
    OctWF (setNode t i n) := by
  refine ⟨by simpa [setNode_length] using hwf.1, ?_⟩
  intro k hk j
  rw [setNode_length] at hk ⊢
  by_cases hik : i = k
  · subst hik
    rw [getNode_setNode_self t i n hk]
    exact hch j
  · rw [getNode_setNode_ne t i k n hik]
    exact hwf.2 k hk j

/-- Frame facts of an insertion step: well-formedness is preserved, the
pool only grows, and nodes strictly before idx are untouched. -/
def framePost (t r : Octree) (idx : Nat) : Prop :=
  OctWF r ∧ t.node_pool.length ≤ r.node_pool.length ∧
  ∀ j, j < idx → getNode r j = getNode t j

/-- Frame facts of the child-descent block: in addition the node at idx
keeps its aggregates (only its children array may change). -/
def childPost (t r : Octree) (idx : Nat) : Prop :=
  framePost t r idx ∧
  (getNode r idx).mass = (getNode t idx).mass ∧
  (getNode r idx).com = (getNode t idx).com ∧
  (getNode r idx).particle_id = (getNode t idx).particle_id ∧
  (getNode r idx).is_leaf = (getNode t idx).is_leaf

/-- Frame and aggregate-update facts of Octree_insert: below the depth
bound, the visited node accumulates exactly the mass of the inserted
particle and its center of mass follows the running mean. -/
def insertPost (t r : Octree) (idx : Nat) (par : Particle) (depth : Nat) :
    Prop :=
  framePost t r idx ∧
  (depth ≤ 50 →
    (getNode r idx).mass = (getNode t idx).mass + par.mass ∧
    (0 < (getNode t idx).mass + par.mass →
      (getNode r idx).com =
        ⟨((getNode t idx).com.x * (getNode t idx).mass +
            par.loc.x * par.mass) / ((getNode t idx).mass + par.mass),
         ((getNode t idx).com.y * (getNode t idx).mass +
            par.loc.y * par.mass) / ((getNode t idx).mass + par.mass),
         ((getNode t idx).com.z * (getNode t idx).mass +
            par.loc.z * par.mass) / ((getNode t idx).mass + par.mass)⟩))

theorem framePost_refl (t : Octree) (idx : Nat) (hwf : OctWF t) :
    framePost t t idx :=
  ⟨hwf, le_rfl, fun _ _ => rfl⟩

theorem insert_into_child_post (parlist : List Particle) (t : Octree)
    (idx : Nat) (q : Particle) (cx cy cz nh : ℚ) (cd : Nat)
    (hwf : OctWF t) (hidx : idx < t.node_pool.length)
    (hA : ∀ t2 : Octree, ∀ c : Nat, ∀ cx2 cy2 cz2 nh2 : ℚ,
      OctWF t2 → c < t2.node_pool.length →
      framePost t2 (Octree_insert parlist t2 c q cx2 cy2 cz2 nh2 cd) c) :
    childPost t (insert_into_child parlist t idx q cx cy cz nh cd).1 idx := by
  rw [insert_into_child]
  lift_lets
  extract_lets cc
  split
  · -- no child stored in this octant yet
    split
    · -- allocate_node returned NULL: tree unchanged
      exact ⟨framePost_refl t idx hwf, rfl, rfl, rfl, rfl⟩
    · -- fresh child allocated at index c = current pool length
      rename_i t1 c hEq
      obtain ⟨hcnf, hpool1, hnf1, -⟩ := allocate_node_spec t t1 c hEq
      have hc : c = t.node_pool.length := by rw [hcnf, hwf.1]
      have hlen1 : t1.node_pool.length = t.node_pool.length + 1 :=
        allocate_node_length t t1 c hEq
      have hidx_ne_c : idx ≠ c := by omega
      have hidx1 : idx < t1.node_pool.length := by omega
      have hc1 : c < t1.node_pool.length := by omega
      lift_lets
      extract_lets s1 t2 s2 t3
      have hs1 : s1 = blankNode := getNode_alloc_new t t1 c hEq hwf.1
      have hlen2 : t2.node_pool.length = t.node_pool.length + 1 := by
        show (setNode t1 c _).node_pool.length = _
        rw [setNode_length, hlen1]
      have hget2idx : getNode t2 idx = getNode t idx := by
        show getNode (setNode t1 c _) idx = _
        rw [getNode_setNode_ne _ _ _ _ (by omega : c ≠ idx),
          getNode_alloc_old t t1 c hEq idx hidx]
      have hs2 : s2 = getNode t idx := hget2idx
      have hget3idx : getNode t3 idx =
          { getNode t idx with
              children := Function.update ((getNode t idx).children)
                (get_octant q.loc.x q.loc.y q.loc.z cx cy cz) (some c) } := by
        show getNode (setNode t2 idx _) idx = _
        rw [getNode_setNode_self _ _ _ (by omega), hs2, hget2idx]
      have hget3c : getNode t3 c =
          { blankNode with center := cc, half_size := nh } := by
        show getNode (setNode t2 idx _) c = _
        rw [getNode_setNode_ne _ _ _ _ hidx_ne_c]
        show getNode (setNode t1 c _) c = _
        rw [getNode_setNode_self _ _ _ hc1, hs1]
      have hget3old : ∀ j, j < t.node_pool.length → j ≠ idx →
          getNode t3 j = getNode t j := by
        intro j hj hji
        show getNode (setNode t2 idx _) j = _
        rw [getNode_setNode_ne _ _ _ _ (fun h => hji h.symm)]
        show getNode (setNode t1 c _) j = _
        rw [getNode_setNode_ne _ _ _ _ (by omega : c ≠ j),
          getNode_alloc_old t t1 c hEq j hj]
      have hlen3 : t3.node_pool.length = t.node_pool.length + 1 := by
        show (setNode t2 idx _).node_pool.length = _
        rw [setNode_length, hlen2]
      have hnf3 : t3.next_free = t.next_free + 1 := by
        show (setNode t2 idx _).next_free = _
        rw [setNode_next_free]
        show (setNode t1 c _).next_free = _
        rw [setNode_next_free, hnf1]
      have hwf3 : OctWF t3 := by
        refine ⟨by rw [hlen3, hnf3, hwf.1], ?_⟩
        intro k hk j
        rw [hlen3] at hk
        by_cases hkidx : k = idx
        · subst hkidx
          rw [hget3idx]
          by_cases hjo : j = get_octant q.loc.x q.loc.y q.loc.z cx cy cz
          · subst hjo
            simp only [Function.update_same]
            exact ⟨by omega, by omega⟩
          · simp only [Function.update_noteq hjo]
            exact childOk_mono (by omega)
              ((getNode t k).children j) (hwf.2 k hidx j)
        · by_cases hkc : k = c
          · subst hkc
            rw [hget3c]
            trivial
          · have hklt : k < t.node_pool.length := by omega
            rw [hget3old k hklt hkidx]
            exact childOk_mono (by omega)
              ((getNode t k).children j) (hwf.2 k hklt j)
      have hrec := hA t3 c cc.x cc.y cc.z nh hwf3 (by omega)
      refine ⟨⟨hrec.1, ?_, ?_⟩, ?_, ?_, ?_, ?_⟩
      · calc t.node_pool.length ≤ t3.node_pool.length := by omega
          _ ≤ _ := hrec.2.1
      · intro j hj
        rw [hrec.2.2 j (by omega), hget3old j (by omega) (by omega)]
      all_goals rw [hrec.2.2 idx (by omega), hget3idx]
    -- child already exists: recurse into it
  · rename_i c hEq
    have hchild := hwf.2 idx hidx
      (get_octant q.loc.x q.loc.y q.loc.z cx cy cz)
    rw [hEq] at hchild
    obtain ⟨hic, hcl⟩ := hchild
    lift_lets
    extract_lets ccn
    have hrec := hA t c ccn.center.x ccn.center.y ccn.center.z nh hwf hcl
    refine ⟨⟨hrec.1, le_trans (by omega) hrec.2.1, ?_⟩, ?_, ?_, ?_, ?_⟩
    · intro j hj
      exact hrec.2.2 j (by omega)
    all_goals rw [hrec.2.2 idx hic]

theorem Octree_insert_post (parlist : List Particle) (t : Octree)
    (idx : Nat) (par : Particle) (cx cy cz hs : ℚ) (depth : Nat)
    (hwf : OctWF t) (hidx : idx < t.node_pool.length)
    (hChild : ∀ t2 : Octree, ∀ idx2 : Nat, ∀ q : Particle,
      ∀ cx2 cy2 cz2 nh2 : ℚ, OctWF t2 → idx2 < t2.node_pool.length →
      childPost t2
        (insert_into_child parlist t2 idx2 q cx2 cy2 cz2 nh2 (depth + 1)).1
        idx2) :
    insertPost t (Octree_insert parlist t idx par cx cy cz hs depth) idx
      par depth := by
  by_cases h50 : 50 < depth
  · rw [Octree_insert, dif_pos h50]
    exact ⟨framePost_refl t idx hwf, fun hle => absurd hle (by omega)⟩
  rw [Octree_insert, dif_neg h50]
  lift_lets
  extract_lets new_half n0 total_mass n1 n2 n3 tB0 existing r src phaseB
  have hmass2 : n2.mass = (getNode t idx).mass + par.mass := by
    unfold_let n2 n1 total_mass n0
    split <;> rfl
  have hch2 : n2.children = (getNode t idx).children := by
    unfold_let n2 n1 n0
    split <;> rfl
  have hcom2 : 0 < (getNode t idx).mass + par.mass →
      n2.com =
        ⟨((getNode t idx).com.x * (getNode t idx).mass +
            par.loc.x * par.mass) / ((getNode t idx).mass + par.mass),
         ((getNode t idx).com.y * (getNode t idx).mass +
            par.loc.y * par.mass) / ((getNode t idx).mass + par.mass),
         ((getNode t idx).com.z * (getNode t idx).mass +
            par.loc.z * par.mass) / ((getNode t idx).mass + par.mass)⟩ := by
    intro h
    unfold_let n2 n1 total_mass n0
    rw [if_pos h]
  split
  · -- empty leaf: the particle is stored here
    refine ⟨⟨?_, ?_, ?_⟩, fun _ => ⟨?_, ?_⟩⟩
    · refine OctWF_setNode t idx _ hwf (fun j => ?_)
      have h := hwf.2 idx hidx j
      rw [← hch2] at h
      exact h
    · exact le_of_eq (setNode_length t idx _).symm
    · intro j hj
      exact getNode_setNode_ne t idx j _ (by omega)
    · rw [getNode_setNode_self t idx _ hidx]
    · intro hpos
      rw [getNode_setNode_self t idx _ hidx]
      exact hcom2 hpos
  · -- occupied leaf or internal node
    have hlen0 : tB0.node_pool.length = t.node_pool.length :=
      setNode_length t idx n3
    have hPB : framePost t phaseB.1 idx ∧
        (getNode phaseB.1 idx).mass = n2.mass ∧
        (getNode phaseB.1 idx).com = n2.com := by
      unfold_let phaseB
      split
      · -- leaf with a particle: subdivide and reinsert the existing one
        have hwf0 : OctWF tB0 := by
          refine OctWF_setNode t idx n3 hwf (fun j => ?_)
          have h := hwf.2 idx hidx j
          rw [← hch2] at h
          exact h
        have hr : childPost tB0 r.1 idx :=
          hChild tB0 idx existing cx cy cz new_half hwf0 (by omega)
        have hidxB : getNode tB0 idx = n3 :=
          getNode_setNode_self t idx n3 hidx
        have hidxr : idx < r.1.node_pool.length :=
          lt_of_lt_of_le (by omega) hr.1.2.1
        split
        · -- pool exhausted during subdivision: early return with r.1
          refine ⟨⟨hr.1.1, ?_, ?_⟩, ?_, ?_⟩
          · exact le_trans (le_of_eq hlen0.symm) hr.1.2.1
          · intro j hj
            rw [hr.1.2.2 j hj]
            exact getNode_setNode_ne t idx j n3 (by omega)
          · rw [hr.2.1, hidxB]
          · rw [hr.2.2.1, hidxB]
        · -- subdivision done: clear the stored particle id
          refine ⟨⟨?_, ?_, ?_⟩, ?_, ?_⟩
          · refine OctWF_setNode r.1 idx _ hr.1.1 (fun j => ?_)
            exact hr.1.1.2 idx hidxr j
          · refine le_trans (le_of_eq hlen0.symm)
              (le_trans hr.1.2.1 (le_of_eq (setNode_length r.1 idx _).symm))
          · intro j hj
            rw [getNode_setNode_ne r.1 idx j _ (by omega), hr.1.2.2 j hj]
            exact getNode_setNode_ne t idx j n3 (by omega)
          · rw [getNode_setNode_self r.1 idx _ hidxr]
            show (getNode r.1 idx).mass = n2.mass
            rw [hr.2.1, hidxB]
          · rw [getNode_setNode_self r.1 idx _ hidxr]
            show (getNode r.1 idx).com = n2.com
            rw [hr.2.2.1, hidxB]
      · -- already internal: only the aggregate update is written back
        refine ⟨⟨?_, ?_, ?_⟩, ?_, ?_⟩
        · refine OctWF_setNode t idx n2 hwf (fun j => ?_)
          have h := hwf.2 idx hidx j
          rw [← hch2] at h
          exact h
        · exact le_of_eq (setNode_length t idx n2).symm
        · intro j hj
          exact getNode_setNode_ne t idx j n2 (by omega)
        · rw [getNode_setNode_self t idx n2 hidx]
        · rw [getNode_setNode_self t idx n2 hidx]
    have hlenPB : t.node_pool.length ≤ phaseB.1.node_pool.length :=
      hPB.1.2.1
    split
    · -- early return propagated
      refine ⟨hPB.1, fun _ => ⟨?_, ?_⟩⟩
      · rw [hPB.2.1]
      · intro hpos
        rw [hPB.2.2]
        exact hcom2 hpos
    · -- descend with the new particle
      have hidxPB : idx < phaseB.1.node_pool.length :=
        lt_of_lt_of_le hidx hlenPB
      have hC := hChild phaseB.1 idx par cx cy cz new_half hPB.1.1 hidxPB
      refine ⟨⟨hC.1.1, le_trans hlenPB hC.1.2.1, ?_⟩, fun _ => ⟨?_, ?_⟩⟩
      · intro j hj
        rw [hC.1.2.2 j hj, hPB.1.2.2 j hj]
      · rw [hC.2.1, hPB.2.1]
      · intro hpos
        rw [hC.2.2.1, hPB.2.2]
        exact hcom2 hpos

theorem insert_frame_both :
    ∀ d : Nat,
      (∀ parlist : List Particle, ∀ t : Octree, ∀ idx : Nat,
        ∀ par : Particle, ∀ cx cy cz hs : ℚ, ∀ depth : Nat,
        51 - depth ≤ d → OctWF t → idx < t.node_pool.length →
        insertPost t (Octree_insert parlist t idx par cx cy cz hs depth)
          idx par depth) ∧
      (∀ parlist : List Particle, ∀ t : Octree, ∀ idx : Nat,
        ∀ q : Particle, ∀ cx cy cz nh : ℚ, ∀ cd : Nat,
        51 - cd ≤ d → OctWF t → idx < t.node_pool.length →
        childPost t (insert_into_child parlist t idx q cx cy cz nh cd).1
          idx) := by
  intro d
  induction d with
  | zero =>
    have hA : ∀ parlist : List Particle, ∀ t : Octree, ∀ idx : Nat,
        ∀ par : Particle, ∀ cx cy cz hs : ℚ, ∀ depth : Nat,
        51 - depth ≤ 0 → OctWF t → idx < t.node_pool.length →
        insertPost t (Octree_insert parlist t idx par cx cy cz hs depth)
          idx par depth := by
      intro parlist t idx par cx cy cz hs depth hd hwf hidx
      have h50 : 50 < depth := by omega
      rw [Octree_insert, dif_pos h50]
      exact ⟨framePost_refl t idx hwf, fun hle => absurd hle (by omega)⟩
    refine ⟨hA, ?_⟩
    intro parlist t idx q cx cy cz nh cd hd hwf hidx
    exact insert_into_child_post parlist t idx q cx cy cz nh cd hwf hidx
      (fun t2 c cx2 cy2 cz2 nh2 hwf2 hc2 =>
        (hA parlist t2 c q cx2 cy2 cz2 nh2 cd hd hwf2 hc2).1)
  | succ d ih =>
    have hA : ∀ parlist : List Particle, ∀ t : Octree, ∀ idx : Nat,
        ∀ par : Particle, ∀ cx cy cz hs : ℚ, ∀ depth : Nat,
        51 - depth ≤ d + 1 → OctWF t → idx < t.node_pool.length →
        insertPost t (Octree_insert parlist t idx par cx cy cz hs depth)
          idx par depth := by
      intro parlist t idx par cx cy cz hs depth hd hwf hidx
      exact Octree_insert_post parlist t idx par cx cy cz hs depth hwf hidx
        (fun t2 idx2 q2 cx2 cy2 cz2 nh2 hwf2 hidx2 =>
          ih.2 parlist t2 idx2 q2 cx2 cy2 cz2 nh2 (depth + 1) (by omega)
            hwf2 hidx2)
    refine ⟨hA, ?_⟩
    intro parlist t idx q cx cy cz nh cd hd hwf hidx
    exact insert_into_child_post parlist t idx q cx cy cz nh cd hwf hidx
      (fun t2 c cx2 cy2 cz2 nh2 hwf2 hc2 =>
        (hA parlist t2 c q cx2 cy2 cz2 nh2 cd hd hwf2 hc2).1)

/-- C4: during octree insertion every node visited on the insertion path
updates its aggregates in place and incrementally: the visited node gains
exactly the mass of the inserted particle, and (whenever the combined
mass is positive) its center of mass becomes the running mean
com2 = (com * mass + p.loc * p.mass) / (mass + p.mass).  There is no
separate bottom-up pass (Octree_insert is the only writer of mass and
com), so folding the insertions of a build over any particle list leaves
the entry node holding its initial mass plus the sum of the masses of all
inserted particles. -/
theorem C4_incremental_aggregates :
    (∀ parlist : List Particle, ∀ t : Octree, ∀ idx : Nat,
      ∀ par : Particle, ∀ cx cy cz hs : ℚ, ∀ depth : Nat,
      OctWF t → idx < t.node_pool.length → depth ≤ 50 →
      (getNode (Octree_insert parlist t idx par cx cy cz hs depth)
          idx).mass = (getNode t idx).mass + par.mass ∧
      (0 < (getNode t idx).mass + par.mass →
        (getNode (Octree_insert parlist t idx par cx cy cz hs depth)
            idx).com =
          ⟨((getNode t idx).com.x * (getNode t idx).mass +
              par.loc.x * par.mass) / ((getNode t idx).mass + par.mass),
           ((getNode t idx).com.y * (getNode t idx).mass +
              par.loc.y * par.mass) / ((getNode t idx).mass + par.mass),
           ((getNode t idx).com.z * (getNode t idx).mass +
              par.loc.z * par.mass) /
             ((getNode t idx).mass + par.mass)⟩)) ∧
    (∀ parlist : List Particle, ∀ t : Octree, ∀ root : Nat,
      ∀ cx cy cz hs : ℚ, ∀ ps : List Particle,
      OctWF t → root < t.node_pool.length →
      (getNode
          (ps.foldl
            (fun tt p => Octree_insert parlist tt root p cx cy cz hs 0) t)
          root).mass =
        (getNode t root).mass + (ps.map Particle.mass).sum) := by
  constructor
  · intro parlist t idx par cx cy cz hs depth hwf hidx hdep
    exact ((insert_frame_both (51 - depth)).1 parlist t idx par cx cy cz hs
      depth le_rfl hwf hidx).2 hdep
  · intro parlist t root cx cy cz hs ps
    induction ps generalizing t with
    | nil => intro hwf hroot; simp
    | cons p ps ih =>
      intro hwf hroot
      have hstep := (insert_frame_both 51).1 parlist t root p cx cy cz hs 0
        (by omega) hwf hroot
      have hwf1 : OctWF (Octree_insert parlist t root p cx cy cz hs 0) :=
        hstep.1.1
      have hroot1 : root <
          (Octree_insert parlist t root p cx cy cz hs 0).node_pool.length :=
        lt_of_lt_of_le hroot hstep.1.2.1
      have hdelta := (hstep.2 (by omega)).1
      simp only [List.foldl_cons, List.map_cons, List.sum_cons]
      rw [ih _ hwf1 hroot1, hdelta]
      ring

theorem C4_witness :
    OctWF (⟨[⟨⟨0, 0, 0⟩, 2, 0, ⟨0, 0, 0⟩, -1, true, 0, fun _ => none⟩],
        4, 1, 1/2, 1, 0⟩ : Octree) ∧
    (getNode
        ([⟨0, ⟨1, 1, 1⟩, ⟨0, 0, 0⟩, 1, 2, 3, false, []⟩,
          ⟨1, ⟨-1, -1, -1⟩, ⟨0, 0, 0⟩, 1, 3, 3, false, []⟩].foldl
          (fun tt p => Octree_insert
            [⟨0, ⟨1, 1, 1⟩, ⟨0, 0, 0⟩, 1, 2, 3, false, []⟩,
             ⟨1, ⟨-1, -1, -1⟩, ⟨0, 0, 0⟩, 1, 3, 3, false, []⟩] tt 0 p
            0 0 0 2 0)
          ⟨[⟨⟨0, 0, 0⟩, 2, 0, ⟨0, 0, 0⟩, -1, true, 0, fun _ => none⟩],
            4, 1, 1/2, 1, 0⟩)
        0).mass =
      (getNode (⟨[⟨⟨0, 0, 0⟩, 2, 0, ⟨0, 0, 0⟩, -1, true, 0,
          fun _ => none⟩], 4, 1, 1/2, 1, 0⟩ : Octree) 0).mass +
      ([⟨0, ⟨1, 1, 1⟩, ⟨0, 0, 0⟩, 1, 2, 3, false, []⟩,
        ⟨1, ⟨-1, -1, -1⟩, ⟨0, 0, 0⟩, 1, 3, 3, false, []⟩].map
          Particle.mass).sum :=
  ⟨by decide,
   C4_incremental_aggregates.2
    [⟨0, ⟨1, 1, 1⟩, ⟨0, 0, 0⟩, 1, 2, 3, false, []⟩,
     ⟨1, ⟨-1, -1, -1⟩, ⟨0, 0, 0⟩, 1, 3, 3, false, []⟩]
    ⟨[⟨⟨0, 0, 0⟩, 2, 0, ⟨0, 0, 0⟩, -1, true, 0, fun _ => none⟩],
      4, 1, 1/2, 1, 0⟩ 0 0 0 0 2
    [⟨0, ⟨1, 1, 1⟩, ⟨0, 0, 0⟩, 1, 2, 3, false, []⟩,
     ⟨1, ⟨-1, -1, -1⟩, ⟨0, 0, 0⟩, 1, 3, 3, false, []⟩]
    (by decide) (by decide)⟩

/-- C8 (amended): particles with mass <= 0 are excluded as gravity
sources and from rotation seeding: the octree build loop inserts exactly
the alive particles with positive mass, the enclosed-mass sum ignores
non-positive masses, and the seeding pass leaves a non-positive-mass
particle untouched.  The gravity force loop, however, tests only
state >= 3, so alive massless particles still receive velocity kicks as
test bodies (see the counterexample for the claim as frozen). -/
theorem C8_massless_excluded (sq : ℚ → ℚ) (parlist : List Particle) :
    (∀ t : Octree, ∀ root : Nat, ∀ cx cy cz hs : ℚ, ∀ ps : List Particle,
      ps.foldl
        (fun tt p =>
          if 3 ≤ p.state ∧ 0 < p.mass then
            Octree_insert parlist tt root p cx cy cz hs 0
          else tt) t =
      (ps.filter (fun p => decide (3 ≤ p.state ∧ 0 < p.mass))).foldl
        (fun tt p => Octree_insert parlist tt root p cx cy cz hs 0) t) ∧
    (∀ r_xy : ℚ,
      enclosed_mass sq parlist r_xy =
        enclosed_mass sq (parlist.filter (fun q => decide (0 < q.mass)))
          r_xy) ∧
    (∀ G strength falloff : ℚ, ∀ i : Nat, ∀ p : Particle,
      parlist.get? i = some p → p.mass ≤ 0 →
      (apply_initial_rotation_once sq G strength falloff parlist).get? i =
        some p) := by
  refine ⟨?_, ?_, ?_⟩
  · intro t root cx cy cz hs ps
    induction ps generalizing t with
    | nil => rfl
    | cons a ps ih =>
      by_cases ha : 3 ≤ a.state ∧ 0 < a.mass
      · simp [List.filter_cons, ha, ih]
      · simp [List.filter_cons, ha, ih]
  · intro r_xy
    unfold enclosed_mass
    have aux : ∀ l : List Particle, ∀ acc : ℚ,
        l.foldl
          (fun acc q =>
            if 0 < q.mass then
              (if planar_radius sq q ≤ r_xy then acc + q.mass else acc)
            else acc) acc =
        (l.filter (fun q => decide (0 < q.mass))).foldl
          (fun acc q =>
            if 0 < q.mass then
              (if planar_radius sq q ≤ r_xy then acc + q.mass else acc)
            else acc) acc := by
      intro l
      induction l with
      | nil => intro acc; rfl
      | cons a l ih =>
        intro acc
        by_cases ha : 0 < a.mass
        · simp [List.filter_cons, ha, ih]
        · simp [List.filter_cons, ha, ih]
    exact aux parlist 0
  · intro G strength falloff i p hp hm
    simp only [apply_initial_rotation_once, List.get?_map, hp,
      Option.map_some', if_pos hm]

set_option maxRecDepth 100000 in
/-- C8 fails as frozen on the gravity pass: an alive particle with
mass 0 placed near a massive particle has its velocity changed by
apply_barnes_hut_gravity (the force loop only tests state >= 3), even
though it was never inserted into the tree. -/
theorem C8_counterexample :
    ((⟨1, ⟨1, 0, 0⟩, ⟨0, 0, 0⟩, 1, 0, 3, false, []⟩ : Particle).mass ≤ 0) ∧
    (apply_barnes_hut_gravity qsqrt ⟨1, 1/2, 0, 1⟩
        [⟨0, ⟨0, 0, 0⟩, ⟨0, 0, 0⟩, 1, 1, 3, false, []⟩,
         ⟨1, ⟨1, 0, 0⟩, ⟨0, 0, 0⟩, 1, 0, 3, false, []⟩]).get? 1 =
      some ⟨1, ⟨1, 0, 0⟩, ⟨-1, 0, 0⟩, 1, 0, 3, false, []⟩ ∧
    (⟨-1, 0, 0⟩ : Vec3) ≠
      (⟨1, ⟨1, 0, 0⟩, ⟨0, 0, 0⟩, 1, 0, 3, false, []⟩ : Particle).vel := by
  refine ⟨by norm_num, ?_, by decide⟩
  with_unfolding_all decide

theorem C8_witness :
    (([⟨0, ⟨1, 0, 0⟩, ⟨2, 3, 4⟩, 1, -1, 3, false, []⟩] :
        List Particle).get? 0 =
      some ⟨0, ⟨1, 0, 0⟩, ⟨2, 3, 4⟩, 1, -1, 3, false, []⟩) ∧
    ((⟨0, ⟨1, 0, 0⟩, ⟨2, 3, 4⟩, 1, -1, 3, false, []⟩ :
        Particle).mass ≤ 0) ∧
    (apply_initial_rotation_once qsqrt 1 1 0
        [⟨0, ⟨1, 0, 0⟩, ⟨2, 3, 4⟩, 1, -1, 3, false, []⟩]).get? 0 =
      some ⟨0, ⟨1, 0, 0⟩, ⟨2, 3, 4⟩, 1, -1, 3, false, []⟩ :=
  ⟨rfl, by norm_num,
   (C8_massless_excluded qsqrt
      [⟨0, ⟨1, 0, 0⟩, ⟨2, 3, 4⟩, 1, -1, 3, false, []⟩]).2.2 1 1 0 0
    ⟨0, ⟨1, 0, 0⟩, ⟨2, 3, 4⟩, 1, -1, 3, false, []⟩ rfl (by norm_num)⟩

/- ============================================================
   Overlap relaxer: relax_overlaps (relax.pyx)
   ============================================================ -/

/-- Flat float-buffer read par_loc[i]. -/
def flat (l : List ℚ) (i : Nat) : ℚ := l.getD i 0

/-- Bounding box of the relaxer (relax.pyx lines 41-59). -/
structure RBounds where
  min_x : ℚ
  max_x : ℚ
  min_y : ℚ
  max_y : ℚ
  min_z : ℚ
  max_z : ℚ
  deriving DecidableEq, Inhabited

/-- Bounds scan of relax_overlaps, seeded from particle 0 and padded by
one cell on every side. -/
def relax_bounds (n : Nat) (loc : List ℚ) (cell_size : ℚ) : RBounds :=
  let b0 : RBounds :=
    ⟨flat loc 0, flat loc 0, flat loc 1, flat loc 1, flat loc 2, flat loc 2⟩
  let b := (List.range n).foldl
    (fun b i =>
      { min_x := if flat loc (i * 3) < b.min_x then flat loc (i * 3)
          else b.min_x,
        max_x := if b.max_x < flat loc (i * 3) then flat loc (i * 3)
          else b.max_x,
        min_y := if flat loc (i * 3 + 1) < b.min_y then flat loc (i * 3 + 1)
          else b.min_y,
        max_y := if b.max_y < flat loc (i * 3 + 1) then flat loc (i * 3 + 1)
          else b.max_y,
        min_z := if flat loc (i * 3 + 2) < b.min_z then flat loc (i * 3 + 2)
          else b.min_z,
        max_z := if b.max_z < flat loc (i * 3 + 2) then flat loc (i * 3 + 2)
          else b.max_z })
    b0
  ⟨b.min_x - cell_size, b.max_x + cell_size, b.min_y - cell_size,
   b.max_y + cell_size, b.min_z - cell_size, b.max_z + cell_size⟩

/-- Grid dimensions implied by a cell size (relax.pyx lines 63-65):
int casts of span / cell_size, plus one. -/
def relax_dims (b : RBounds) (cell : ℚ) : ℤ × ℤ × ℤ :=
  (ctrunc ((b.max_x - b.min_x) / cell) + 1,
   ctrunc ((b.max_y - b.min_y) / cell) + 1,
   ctrunc ((b.max_z - b.min_z) / cell) + 1)

/-- Total cell count for a cell size. -/
def relax_total (b : RBounds) (cell : ℚ) : ℤ :=
  (relax_dims b cell).1 * (relax_dims b cell).2.1 * (relax_dims b cell).2.2

/-- The cell-size doubling loop (relax.pyx lines 69-74): while the total
cell count exceeds 10,000,000 AND the cell size is below 1000, double the
cell size.  The loop is modelled with explicit fuel; relax_grid passes
enough fuel for any positive starting cell size (for a non-positive cell
size the C loop would never terminate when the cap is exceeded). -/
def relax_grid_double (b : RBounds) : Nat → ℚ → ℚ
  | 0, cell => cell
  | fuel + 1, cell =>
    if 10000000 < relax_total b cell ∧ cell < 1000 then
      relax_grid_double b fuel (cell * 2)
    else cell

/-- Fuel that suffices for the doubling loop: the cell size reaches 1000
after at most ceil(1000 / cell) doublings. -/
def gridFuel (cell : ℚ) : Nat := (⌈(1000 : ℚ) / cell⌉).toNat

/-- The spatial-hash grid computed by relax_overlaps before its iteration
loop (relax.pyx lines 31-76). -/
structure RelaxGrid where
  cell_size : ℚ
  bounds : RBounds
  grid_x : ℤ
  grid_y : ℤ
  grid_z : ℤ
  total_cells : ℤ
  deriving DecidableEq, Inhabited

/-- Grid-sizing phase of relax_overlaps: max radius, initial cell size
max_size * 2 * min_separation * 1.1, padded bounds, and the doubling loop
capping the total cell count (the final int narrowing of the total is the
identity for the in-range values modelled here). -/
def relax_grid (loc : List ℚ) (par_size : List ℚ) (min_separation : ℚ) :
    RelaxGrid :=
  let n := par_size.length
  let max_size := par_size.foldl (fun m s => if m < s then s else m) 0
  let cell0 := max_size * 2 * min_separation * (11/10)
  let b := relax_bounds n loc cell0
  let cell := relax_grid_double b (gridFuel cell0) cell0
  { cell_size := cell, bounds := b,
    grid_x := (relax_dims b cell).1, grid_y := (relax_dims b cell).2.1,
    grid_z := (relax_dims b cell).2.2, total_cells := relax_total b cell }

/-- Clamped cell coordinate along one axis (relax.pyx lines 111-119). -/
def cell_coord (v minv cell : ℚ) (gdim : ℤ) : ℤ :=
  let c := ctrunc ((v - minv) / cell)
  if c < 0 then 0 else if gdim ≤ c then gdim - 1 else c

/-- Linear cell index of a position (relax.pyx line 120). -/
def cell_index (g : RelaxGrid) (x y z : ℚ) : ℤ :=
  cell_coord x g.bounds.min_x g.cell_size g.grid_x +
  cell_coord y g.bounds.min_y g.cell_size g.grid_y * g.grid_x +
  cell_coord z g.bounds.min_z g.cell_size g.grid_z * g.grid_x * g.grid_y

/-- The slice of the counting-sorted index array belonging to one cell:
the two-pass counting sort of relax.pyx (count, prefix-sum, stable
scatter in increasing particle order) lays out, for each cell, exactly
the particle indices assigned to that cell in increasing order; the
sweep only ever reads such per-cell slices. -/
def cell_particles (cells : List ℤ) (c : ℤ) : List Nat :=
  (List.range cells.length).filter (fun i => cells.getD i 0 = c)

/-- Candidate neighbor cells of a grid coordinate: the 3x3x3 block around
(cx, cy, cz), keeping only in-range coordinates, enumerated in the loop
order of relax.pyx lines 151-161. -/
def neighbor_cells (g : RelaxGrid) (cx cy cz : ℤ) : List ℤ :=
  ([cx - 1, cx, cx + 1].filter (fun v => 0 ≤ v ∧ v < g.grid_x)).flatMap
    (fun ncx =>
      ([cy - 1, cy, cy + 1].filter (fun v => 0 ≤ v ∧ v < g.grid_y)).flatMap
        (fun ncy =>
          ([cz - 1, cz, cz + 1].filter
              (fun v => 0 ≤ v ∧ v < g.grid_z)).map
            (fun ncz => ncx + ncy * g.grid_x + ncz * g.grid_x * g.grid_y)))

/-- One pair interaction of the relaxation sweep (relax.pyx lines
165-214): for j > i, test the current positions against the separation
target and push the pair symmetrically apart, substituting a fixed axis
for a degenerate direction; returns the updated buffer and overlap
count. -/
def relax_pair (sq : ℚ → ℚ) (sizes : List ℚ) (min_sep strength : ℚ)
    (i : Nat) (st : List ℚ × Nat) (j : Nat) : List ℚ × Nat :=
  if j ≤ i then st
  else
    let loc := st.1
    let xi := flat loc (i * 3)
    let yi := flat loc (i * 3 + 1)
    let zi := flat loc (i * 3 + 2)
    let xj := flat loc (j * 3)
    let yj := flat loc (j * 3 + 1)
    let zj := flat loc (j * 3 + 2)
    let ri := sizes.getD i 0
    let rj := sizes.getD j 0
    let dx := xj - xi
    let dy := yj - yi
    let dz := zj - zi
    let dist_sq := dx * dx + dy * dy + dz * dz
    let min_dist := (ri + rj) * min_sep
    if dist_sq < min_dist * min_dist then
      let dist := if 1 / 10000000000 < dist_sq then sq dist_sq
        else 1 / 100000
      let dx2 := if 1 / 10000000000 < dist_sq then dx else 1
      let dy2 := if 1 / 10000000000 < dist_sq then dy else 0
      let dz2 := if 1 / 10000000000 < dist_sq then dz else 0
      let overlap := (min_dist - dist) * strength
      let inv_dist := 1 / dist
      let nx := dx2 * inv_dist
      let ny := dy2 * inv_dist
      let nz := dz2 * inv_dist
      let loc1 := ((((((loc.set (i * 3) (xi - nx * overlap)).set
        (i * 3 + 1) (yi - ny * overlap)).set
        (i * 3 + 2) (zi - nz * overlap)).set
        (j * 3) (xj + nx * overlap)).set
        (j * 3 + 1) (yj + ny * overlap)).set
        (j * 3 + 2) (zj + nz * overlap))
      (loc1, st.2 + 1)
    else st

/-- One full relaxation pass (relax.pyx lines 103-214): rebuild the cell
assignment from the positions at the start of the pass, then sweep the
particles in order; each particle reads its own current (possibly
already pushed) position, derives its 3x3x3 neighborhood from it, and
processes the j > i candidates of each neighbor cell in slice order. -/
def relax_pass (sq : ℚ → ℚ) (g : RelaxGrid) (n : Nat) (sizes : List ℚ)
    (min_sep strength : ℚ) (loc0 : List ℚ) : List ℚ × Nat :=
  let cells := (List.range n).map
    (fun i => cell_index g (flat loc0 (i * 3)) (flat loc0 (i * 3 + 1))
      (flat loc0 (i * 3 + 2)))
  (List.range n).foldl
    (fun st i =>
      let cx := cell_coord (flat st.1 (i * 3)) g.bounds.min_x g.cell_size
        g.grid_x
      let cy := cell_coord (flat st.1 (i * 3 + 1)) g.bounds.min_y
        g.cell_size g.grid_y
      let cz := cell_coord (flat st.1 (i * 3 + 2)) g.bounds.min_z
        g.cell_size g.grid_z
      (neighbor_cells g cx cy cz).foldl
        (fun st2 nc =>
          (cell_particles cells nc).foldl
            (relax_pair sq sizes min_sep strength i) st2)
        st)
    (loc0, 0)

/-- The iteration loop of relax_overlaps (relax.pyx lines 102-232),
with the iteration budget as countdown fuel and the returned triple
(iterations_used, initial_overlaps, final_overlaps) as in the source. -/
def relax_loop (sq : ℚ → ℚ) (g : RelaxGrid) (n : Nat) (sizes : List ℚ)
    (min_sep strength : ℚ) (max_iterations : ℤ) :
    Nat → List ℚ → Nat → ℤ → ℤ → (ℤ × ℤ × ℤ) × List ℚ
  | 0, loc, _, initial, final => ((max_iterations, initial, final), loc)
  | rem + 1, loc, iter, initial, final =>
    let pr := relax_pass sq g n sizes min_sep strength loc
    let initial1 := if iter = 0 then (pr.2 : ℤ) else initial
    if pr.2 = 0 then (((iter : ℤ) + 1, initial1, 0), pr.1)
    else relax_loop sq g n sizes min_sep strength max_iterations rem pr.1
      (iter + 1) initial1 (pr.2 : ℤ)

/-- relax_overlaps from relax.pyx.  allocOk models whether the four
malloc calls for the grid buffers succeed; on failure the partial
allocations are freed and the distinguished triple (0, 0, -1) is
returned with the buffer untouched.  num_threads is unused by the
source body and therefore not a parameter. -/
def relax_overlaps (sq : ℚ → ℚ) (allocOk : Bool) (par_loc par_size :
    List ℚ) (max_iterations : ℤ) (min_separation strength : ℚ) :
    (ℤ × ℤ × ℤ) × List ℚ :=
  let n := par_size.length
  if n < 2 then ((0, 0, 0), par_loc)
  else
    let g := relax_grid par_loc par_size min_separation
    if allocOk = false then ((0, 0, -1), par_loc)
    else
      relax_loop sq g n par_size min_separation strength max_iterations
        max_iterations.toNat par_loc 0 0 0

/-- Iterated relaxation passes: the position buffer after k passes. -/
def relax_iter (sq : ℚ → ℚ) (g : RelaxGrid) (n : Nat) (sizes : List ℚ)
    (min_sep strength : ℚ) : Nat → List ℚ → List ℚ
  | 0, loc => loc
  | k + 1, loc =>
    relax_iter sq g n sizes min_sep strength k
      (relax_pass sq g n sizes min_sep strength loc).1

/-- Overlap count found by pass number k (0-based). -/
def pass_count (sq : ℚ → ℚ) (g : RelaxGrid) (n : Nat) (sizes : List ℚ)
    (min_sep strength : ℚ) (loc : List ℚ) (k : Nat) : Nat :=
  (relax_pass sq g n sizes min_sep strength
    (relax_iter sq g n sizes min_sep strength k loc)).2

theorem relax_iter_zero_eq (sq : ℚ → ℚ) (g : RelaxGrid) (n : Nat)
    (sizes : List ℚ) (ms str : ℚ) (loc : List ℚ) :
    relax_iter sq g n sizes ms str 0 loc = loc := rfl

theorem relax_iter_succ_eq (sq : ℚ → ℚ) (g : RelaxGrid) (n : Nat)
    (sizes : List ℚ) (ms str : ℚ) (k : Nat) (loc : List ℚ) :
    relax_iter sq g n sizes ms str (k + 1) loc =
      relax_iter sq g n sizes ms str k
        (relax_pass sq g n sizes ms str loc).1 := rfl

theorem pass_count_zero_eq (sq : ℚ → ℚ) (g : RelaxGrid) (n : Nat)
    (sizes : List ℚ) (ms str : ℚ) (loc : List ℚ) :
    pass_count sq g n sizes ms str loc 0 =
      (relax_pass sq g n sizes ms str loc).2 := rfl

theorem pass_count_succ_eq (sq : ℚ → ℚ) (g : RelaxGrid) (n : Nat)
    (sizes : List ℚ) (ms str : ℚ) (k : Nat) (loc : List ℚ) :
    pass_count sq g n sizes ms str loc (k + 1) =
      pass_count sq g n sizes ms str
        (relax_pass sq g n sizes ms str loc).1 k := rfl

theorem relax_loop_spec (sq : ℚ → ℚ) (g : RelaxGrid) (n : Nat)
    (sizes : List ℚ) (ms str : ℚ) (maxI : ℤ) :
    ∀ rem : Nat, ∀ loc : List ℚ, ∀ iter : Nat, ∀ initial final : ℤ,
    1 ≤ iter →
    ((∀ k, k < rem → pass_count sq g n sizes ms str loc k ≠ 0) →
      relax_loop sq g n sizes ms str maxI rem loc iter initial final =
        ((maxI, initial,
          if rem = 0 then final
          else (pass_count sq g n sizes ms str loc (rem - 1) : ℤ)),
         relax_iter sq g n sizes ms str rem loc)) ∧
    (∀ k, k < rem → pass_count sq g n sizes ms str loc k = 0 →
      (∀ j, j < k → pass_count sq g n sizes ms str loc j ≠ 0) →
      relax_loop sq g n sizes ms str maxI rem loc iter initial final =
        (((iter : ℤ) + (k : ℤ) + 1, initial, 0),
         relax_iter sq g n sizes ms str (k + 1) loc)) := by
  intro rem
  induction rem with
  | zero =>
    intro loc iter initial final hiter
    exact ⟨fun _ => rfl, fun k hk => absurd hk (by omega)⟩
  | succ r ih =>
    intro loc iter initial final hiter
    have hiter0 : ¬ iter = 0 := by omega
    constructor
    · intro hall
      have hc0 : ¬ (relax_pass sq g n sizes ms str loc).2 = 0 := by
        rw [← pass_count_zero_eq]
        exact hall 0 (by omega)
      rw [relax_loop]
      simp only [if_neg hiter0, if_neg hc0]
      have h2 := (ih (relax_pass sq g n sizes ms str loc).1 (iter + 1)
        initial ((relax_pass sq g n sizes ms str loc).2 : ℤ)
        (by omega)).1
        (fun k hk => by
          rw [← pass_count_succ_eq]
          exact hall (k + 1) (by omega))
      rw [h2, ← relax_iter_succ_eq]
      cases r with
      | zero =>
        simp [pass_count_zero_eq]
      | succ r2 =>
        simp only [Nat.succ_ne_zero, if_false, Nat.succ_sub_one,
          ← pass_count_succ_eq]
    · intro k hk hk0 hprev
      cases k with
      | zero =>
        rw [relax_loop]
        simp only [if_neg hiter0]
        rw [if_pos (by rw [← pass_count_zero_eq]; exact hk0)]
        rw [relax_iter_succ_eq, relax_iter_zero_eq]
        simp
      | succ j =>
        have hc0 : ¬ (relax_pass sq g n sizes ms str loc).2 = 0 := by
          rw [← pass_count_zero_eq]
          exact hprev 0 (by omega)
        rw [relax_loop]
        simp only [if_neg hiter0, if_neg hc0]
        have h2 := (ih (relax_pass sq g n sizes ms str loc).1 (iter + 1)
          initial ((relax_pass sq g n sizes ms str loc).2 : ℤ)
          (by omega)).2 j (by omega)
          (by rw [← pass_count_succ_eq]; exact hk0)
          (fun j2 hj2 => by
            rw [← pass_count_succ_eq]
            exact hprev (j2 + 1) (by omega))
        rw [h2, ← relax_iter_succ_eq]
        refine congrArg₂ _ ?_ rfl
        refine congrArg₂ _ ?_ rfl
        push_cast
        ring_nf

/-- C10: calling relax_overlaps with fewer than two particles returns
(0, 0, 0) immediately and leaves the position buffer completely
unchanged. -/
theorem C10_trivial_input (sq : ℚ → ℚ) (allocOk : Bool)
    (par_loc par_size : List ℚ) (max_iterations : ℤ)
    (min_separation strength : ℚ) (h : par_size.length < 2) :
    relax_overlaps sq allocOk par_loc par_size max_iterations
      min_separation strength = ((0, 0, 0), par_loc) := by
  rw [relax_overlaps]
  rw [if_pos h]

theorem C10_witness :
    (([(1 : ℚ)] : List ℚ).length < 2) ∧
    relax_overlaps qsqrt true [5, 6, 7] [1] 10 1 (4/5) =
      ((0, 0, 0), [5, 6, 7]) :=
  ⟨by decide,
   C10_trivial_input qsqrt true [5, 6, 7] [1] 10 1 (4/5) (by decide)⟩

theorem relax_loop_head (sq : ℚ → ℚ) (g : RelaxGrid) (n : Nat)
    (sizes : List ℚ) (ms str : ℚ) (maxI : ℤ) (rem : Nat) (loc : List ℚ) :
    relax_loop sq g n sizes ms str maxI (rem + 1) loc 0 0 0 =
      if (relax_pass sq g n sizes ms str loc).2 = 0 then
        ((((0 : ℕ) : ℤ) + 1,
          ((relax_pass sq g n sizes ms str loc).2 : ℤ), 0),
         (relax_pass sq g n sizes ms str loc).1)
      else relax_loop sq g n sizes ms str maxI rem
        (relax_pass sq g n sizes ms str loc).1 1
        ((relax_pass sq g n sizes ms str loc).2 : ℤ)
        ((relax_pass sq g n sizes ms str loc).2 : ℤ) := rfl

/-- C6: with at least two particles and successful grid allocation,
relax_overlaps terminates early with (iterations_used, initial_overlaps,
0) as soon as pass k is the first pass finding zero overlaps (using
iterations_used = k + 1); if every pass within the budget finds overlaps
and the budget holds at least one pass, it returns (max_iterations,
initial_overlaps, final_overlaps) with final_overlaps the nonzero count
of the last pass; and if allocating the grid buffers fails it returns
the distinguished error triple (0, 0, -1) with the buffer untouched
instead of crashing.  initial_overlaps is always the count of pass 0. -/
theorem C6_relax_termination (sq : ℚ → ℚ) (par_loc par_size : List ℚ)
    (maxI : ℤ) (ms str : ℚ) (hn : 2 ≤ par_size.length) :
    (∀ k, k < maxI.toNat →
      pass_count sq (relax_grid par_loc par_size ms) par_size.length
        par_size ms str par_loc k = 0 →
      (∀ j, j < k →
        pass_count sq (relax_grid par_loc par_size ms) par_size.length
          par_size ms str par_loc j ≠ 0) →
      relax_overlaps sq true par_loc par_size maxI ms str =
        (((k : ℤ) + 1,
          (pass_count sq (relax_grid par_loc par_size ms) par_size.length
            par_size ms str par_loc 0 : ℤ), 0),
         relax_iter sq (relax_grid par_loc par_size ms) par_size.length
           par_size ms str (k + 1) par_loc)) ∧
    (1 ≤ maxI.toNat →
      (∀ k, k < maxI.toNat →
        pass_count sq (relax_grid par_loc par_size ms) par_size.length
          par_size ms str par_loc k ≠ 0) →
      relax_overlaps sq true par_loc par_size maxI ms str =
        ((maxI,
          (pass_count sq (relax_grid par_loc par_size ms) par_size.length
            par_size ms str par_loc 0 : ℤ),
          (pass_count sq (relax_grid par_loc par_size ms) par_size.length
            par_size ms str par_loc (maxI.toNat - 1) : ℤ)),
         relax_iter sq (relax_grid par_loc par_size ms) par_size.length
           par_size ms str maxI.toNat par_loc) ∧
      pass_count sq (relax_grid par_loc par_size ms) par_size.length
        par_size ms str par_loc (maxI.toNat - 1) ≠ 0) ∧
    (relax_overlaps sq false par_loc par_size maxI ms str =
      ((0, 0, -1), par_loc)) := by
  have hn2 : ¬ par_size.length < 2 := by omega
  refine ⟨?_, ?_, ?_⟩
  · intro k hk hk0 hprev
    rw [relax_overlaps, if_neg hn2, if_neg (by simp)]
    obtain ⟨rem, hrem⟩ : ∃ rem, maxI.toNat = rem + 1 :=
      ⟨maxI.toNat - 1, by omega⟩
    rw [hrem, relax_loop_head]
    cases k with
    | zero =>
      have hp0 : (relax_pass sq (relax_grid par_loc par_size ms)
          par_size.length par_size ms str par_loc).2 = 0 := by
        rw [← pass_count_zero_eq]; exact hk0
      rw [if_pos hp0, relax_iter_succ_eq, relax_iter_zero_eq,
        ← pass_count_zero_eq]
    | succ j =>
      have hc0 : ¬ (relax_pass sq (relax_grid par_loc par_size ms)
          par_size.length par_size ms str par_loc).2 = 0 := by
        rw [← pass_count_zero_eq]
        exact hprev 0 (by omega)
      rw [if_neg hc0]
      have h2 := (relax_loop_spec sq (relax_grid par_loc par_size ms)
        par_size.length par_size ms str maxI rem
        (relax_pass sq (relax_grid par_loc par_size ms) par_size.length
          par_size ms str par_loc).1 1
        ((relax_pass sq (relax_grid par_loc par_size ms) par_size.length
          par_size ms str par_loc).2 : ℤ)
        ((relax_pass sq (relax_grid par_loc par_size ms) par_size.length
          par_size ms str par_loc).2 : ℤ) le_rfl).2 j (by omega)
        (by rw [← pass_count_succ_eq]; exact hk0)
        (fun j2 hj2 => by
          rw [← pass_count_succ_eq]
          exact hprev (j2 + 1) (by omega))
      rw [h2, ← relax_iter_succ_eq, ← pass_count_zero_eq]
      refine congrArg₂ _ ?_ rfl
      refine congrArg₂ _ ?_ rfl
      push_cast
      ring_nf
  · intro hpos hall
    rw [relax_overlaps, if_neg hn2, if_neg (by simp)]
    obtain ⟨rem, hrem⟩ : ∃ rem, maxI.toNat = rem + 1 :=
      ⟨maxI.toNat - 1, by omega⟩
    rw [hrem, relax_loop_head]
    have hc0 : ¬ (relax_pass sq (relax_grid par_loc par_size ms)
        par_size.length par_size ms str par_loc).2 = 0 := by
      rw [← pass_count_zero_eq]
      exact hall 0 (by omega)
    rw [if_neg hc0]
    have h2 := (relax_loop_spec sq (relax_grid par_loc par_size ms)
      par_size.length par_size ms str maxI rem
      (relax_pass sq (relax_grid par_loc par_size ms) par_size.length
        par_size ms str par_loc).1 1
      ((relax_pass sq (relax_grid par_loc par_size ms) par_size.length
        par_size ms str par_loc).2 : ℤ)
      ((relax_pass sq (relax_grid par_loc par_size ms) par_size.length
        par_size ms str par_loc).2 : ℤ) le_rfl).1
      (fun k hk => by
        rw [← pass_count_succ_eq]
        exact hall (k + 1) (by omega))
    rw [h2, ← relax_iter_succ_eq, ← pass_count_zero_eq]
    refine ⟨?_, ?_⟩
    · cases rem with
      | zero => simp
      | succ r2 =>
        simp only [Nat.succ_ne_zero, if_false, Nat.succ_sub_one,
          pass_count_succ_eq]
    · rw [Nat.add_sub_cancel]
      exact hall rem (by omega)
  · rw [relax_overlaps, if_neg hn2]
    rfl

set_option maxRecDepth 100000 in
theorem C6_witness :
    2 ≤ ([(1 : ℚ), 1] : List ℚ).length ∧
    1 < (5 : ℤ).toNat ∧
    pass_count qsqrt (relax_grid [0, 0, 0, 1, 0, 0] [1, 1] 1) 2
      [1, 1] 1 1 [0, 0, 0, 1, 0, 0] 1 = 0 ∧
    relax_overlaps qsqrt true [0, 0, 0, 1, 0, 0] [1, 1] 5 1 1 =
      ((((1 : ℕ) : ℤ) + 1,
        (pass_count qsqrt (relax_grid [0, 0, 0, 1, 0, 0] [1, 1] 1) 2
          [1, 1] 1 1 [0, 0, 0, 1, 0, 0] 0 : ℤ), 0),
       relax_iter qsqrt (relax_grid [0, 0, 0, 1, 0, 0] [1, 1] 1) 2
         [1, 1] 1 1 2 [0, 0, 0, 1, 0, 0]) :=
  ⟨by decide, by decide, by with_unfolding_all decide,
   (C6_relax_termination qsqrt [0, 0, 0, 1, 0, 0] [1, 1] 5 1 1
     (by decide)).1 1 (by decide) (by with_unfolding_all decide)
     (fun j hj => by
       have hj0 : j = 0 := by omega
       rw [hj0]
       with_unfolding_all decide)⟩

theorem gridFuel_suffices (cell : ℚ) (h : 0 < cell) :
    (1000 : ℚ) ≤ cell * 2 ^ gridFuel cell := by
  have hq : (0 : ℚ) < 1000 / cell := by positivity
  have hceil : (0 : ℤ) < ⌈(1000 : ℚ) / cell⌉ := Int.ceil_pos.mpr hq
  have hnat : ((gridFuel cell : ℕ) : ℤ) = ⌈(1000 : ℚ) / cell⌉ :=
    Int.toNat_of_nonneg (le_of_lt hceil)
  have h1 : (1000 : ℚ) / cell ≤ ((gridFuel cell : ℕ) : ℚ) := by
    have h0 := Int.le_ceil ((1000 : ℚ) / cell)
    rw [← hnat] at h0
    exact_mod_cast h0
  have h2 : ((gridFuel cell : ℕ) : ℚ) ≤ 2 ^ gridFuel cell := by
    exact_mod_cast (Nat.lt_two_pow (gridFuel cell)).le
  have h3 := le_trans h1 h2
  rw [div_le_iff h] at h3
  linarith

theorem relax_grid_double_post (b : RBounds) :
    ∀ fuel : Nat, ∀ cell : ℚ,
    (1000 : ℚ) ≤ cell * 2 ^ fuel →
    ∃ k : Nat, relax_grid_double b fuel cell = cell * 2 ^ k ∧
      (relax_total b (relax_grid_double b fuel cell) ≤ 10000000 ∨
       (1000 : ℚ) ≤ relax_grid_double b fuel cell) := by
  intro fuel
  induction fuel with
  | zero =>
    intro cell hc
    refine ⟨0, by simp [relax_grid_double], Or.inr ?_⟩
    rw [relax_grid_double]
    simpa using hc
  | succ f ih =>
    intro cell hc
    rw [relax_grid_double]
    split
    case isTrue h =>
      have hc2 : (1000 : ℚ) ≤ cell * 2 * 2 ^ f := by
        rw [pow_succ] at hc
        linarith
      obtain ⟨k, hk, hp⟩ := ih (cell * 2) hc2
      exact ⟨k + 1, by rw [hk]; ring, hp⟩
    case isFalse h =>
      push_neg at h
      refine ⟨0, by ring, ?_⟩
      by_cases ht : relax_total b cell ≤ 10000000
      · exact Or.inl ht
      · exact Or.inr (h (by omega))

/-- C9 (amended): the relaxer cell-size doubling loop stops when the
total cell count drops to the 10,000,000 cap OR when the cell size
reaches 1000; consequently the grid it allocates satisfies
total_cells <= 10,000,000 or cell_size >= 1000, and only the former is
the cap the claim describes.  The final cell size is the initial one
doubled some number of times.  Requires a positive initial cell size
(otherwise the C loop would not terminate when the cap is exceeded). -/
theorem C9_grid_cap (loc par_size : List ℚ) (ms : ℚ)
    (h : (0 : ℚ) <
      (par_size.foldl (fun m s => if m < s then s else m) 0) * 2 * ms *
        (11 / 10)) :
    (∃ k : Nat, (relax_grid loc par_size ms).cell_size =
      (par_size.foldl (fun m s => if m < s then s else m) 0) * 2 * ms *
        (11 / 10) * 2 ^ k) ∧
    ((relax_grid loc par_size ms).total_cells ≤ 10000000 ∨
      (1000 : ℚ) ≤ (relax_grid loc par_size ms).cell_size) := by
  obtain ⟨k, hk, hp⟩ := relax_grid_double_post
    (relax_bounds par_size.length loc
      ((par_size.foldl (fun m s => if m < s then s else m) 0) * 2 * ms *
        (11 / 10)))
    (gridFuel
      ((par_size.foldl (fun m s => if m < s then s else m) 0) * 2 * ms *
        (11 / 10)))
    ((par_size.foldl (fun m s => if m < s then s else m) 0) * 2 * ms *
      (11 / 10))
    (gridFuel_suffices _ h)
  exact ⟨⟨k, hk⟩, hp⟩

theorem C9_witness :
    ((0 : ℚ) <
      (([(1 : ℚ), 1] : List ℚ).foldl (fun m s => if m < s then s else m)
        0) * 2 * 1 * (11 / 10)) ∧
    ((∃ k : Nat, (relax_grid [0, 0, 0, 1, 1, 1] [1, 1] 1).cell_size =
      (([(1 : ℚ), 1] : List ℚ).foldl (fun m s => if m < s then s else m)
        0) * 2 * 1 * (11 / 10) * 2 ^ k) ∧
    ((relax_grid [0, 0, 0, 1, 1, 1] [1, 1] 1).total_cells ≤ 10000000 ∨
      (1000 : ℚ) ≤ (relax_grid [0, 0, 0, 1, 1, 1] [1, 1] 1).cell_size)) :=
  ⟨by with_unfolding_all decide,
   C9_grid_cap [0, 0, 0, 1, 1, 1] [1, 1] 1
     (by with_unfolding_all decide)⟩

/-- The doubling loop of relax.pyx also stops when the cell size reaches
1000, so the allocated grid can exceed the 10,000,000-cell cap: two unit
particles 2^40 apart give a grid of about 9.76e8 cells. -/
theorem C9_counterexample :
    10000000 <
      (relax_grid [0, 0, 0, 1099511627776, 0, 0] [1, 1] 1).total_cells := by
  with_unfolding_all decide

/- ============================================================
   Parity partitioner: simulate (simulate.pyx lines 413-533, 596-623)
   ============================================================ -/

/-- INT_MAX, the sentinel initialising the bounds scan of simulate. -/
def intMaxQ : ℚ := 2147483647

/-- The running state of the bounds/size scan of simulate
(lines 415-421 and 442-470): axis bounds and the largest of link rest
lenghts and particle diameters. -/
structure PoolScan where
  minX : ℚ
  maxX : ℚ
  minY : ℚ
  maxY : ℚ
  minZ : ℚ
  maxZ : ℚ
  maxSize : ℚ
  deriving DecidableEq, Inhabited

/-- One iteration of the scan loop of simulate (lines 442-470): update
the per-axis min and max with the particle position, then maxSize with
the active link rest lenghts and with twice the particle size. -/
def pool_scan_step (s : PoolScan) (p : Particle) : PoolScan :=
  let ms1 := if p.links_active then
      p.links.foldl (fun m l => if m < l.lenght then l.lenght else m)
        s.maxSize
    else s.maxSize
  let ms2 := if ms1 < p.size * 2 then p.size * 2 else ms1
  { minX := if p.loc.x < s.minX then p.loc.x else s.minX,
    maxX := if s.maxX < p.loc.x then p.loc.x else s.maxX,
    minY := if p.loc.y < s.minY then p.loc.y else s.minY,
    maxY := if s.maxY < p.loc.y then p.loc.y else s.maxY,
    minZ := if p.loc.z < s.minZ then p.loc.z else s.minZ,
    maxZ := if s.maxZ < p.loc.z then p.loc.z else s.maxZ,
    maxSize := ms2 }

/-- The full scan of simulate lines 442-470 over the particle list. -/
def pool_scan (parlist : List Particle) : PoolScan :=
  parlist.foldl pool_scan_step
    ⟨intMaxQ, -intMaxQ, intMaxQ, -intMaxQ, intMaxQ, -intMaxQ, -intMaxQ⟩

/-- Dominant-axis selection of simulate lines 473-486: the three
sequential if statements assigning parPool.axis, parPool.offset and
parPool.max; the result is (axis, offset, max), with axis left at its
initialisation value -1 when no condition fires (the exact Y = Z > X
tie, in which case the C code reads loc[-1] out of bounds). -/
def pool_axis (s : PoolScan) : ℤ × ℚ × ℚ :=
  let a0 : ℤ × ℚ × ℚ := (-1, 0, 0)
  let a1 := if s.maxY - s.minY ≤ s.maxX - s.minX ∧
      s.maxZ - s.minZ ≤ s.maxX - s.minX then
    ((0 : ℤ), 0 - s.minX, s.maxX + (0 - s.minX)) else a0
  let a2 := if s.maxX - s.minX < s.maxY - s.minY ∧
      s.maxZ - s.minZ < s.maxY - s.minY then
    ((1 : ℤ), 0 - s.minY, s.maxY + (0 - s.minY)) else a1
  if s.maxY - s.minY < s.maxZ - s.minZ ∧
      s.maxX - s.minX < s.maxZ - s.minZ then
    ((2 : ℤ), 0 - s.minZ, s.maxZ + (0 - s.minZ)) else a2

/-- maxSize adjustment of simulate lines 488-489: raise maxSize to
max / (cpunum * 10) when the latter is larger. -/
def pool_maxSize2 (s : PoolScan) (cpunum : ℚ) : ℚ :=
  if s.maxSize < (pool_axis s).2.2 / (cpunum * 10) then
    (pool_axis s).2.2 / (cpunum * 10)
  else s.maxSize

/-- The bin scale factor of simulate line 493: 1 / (maxSize * 2.1). -/
def pool_scale (s : PoolScan) (cpunum : ℚ) : ℚ :=
  1 / (pool_maxSize2 s cpunum * (21 / 10))

/-- loc[axis] for the axis codes 0, 1, 2 written by pool_axis. -/
def locAxis (p : Particle) (axis : ℤ) : ℚ :=
  if axis = 0 then p.loc.x else if axis = 1 then p.loc.y else p.loc.z

/-- Heap (bin) index of a particle, simulate lines 514-516:
the C int cast of (loc[axis] + offset) * scale. -/
def heap_index (p : Particle) (axis : ℤ) (offset scale : ℚ) : ℤ :=
  ctrunc ((locAxis p axis + offset) * scale)

/-- Parity tag of a particle, simulate lines 511-513: the C int cast of
((loc[axis] + offset) * scale) % 2, the float modulo. -/
def pair_index (p : Particle) (axis : ℤ) (offset scale : ℚ) : ℤ :=
  ctrunc (cfmod ((locAxis p axis + offset) * scale) 2)

/-- Number of heaps per parity, simulate lines 500 and 599:
int(max * scale) + 1. -/
def pool_heap_count (s : PoolScan) (cpunum : ℚ) : Nat :=
  (ctrunc ((pool_axis s).2.2 * pool_scale s cpunum) + 1).toNat

/-- The (parity, heap) pairs in the order the processing loop of
simulate lines 597-623 visits them: for pair in range(2), for heaps in
prange(H) (the prange parallelism stays within one parity; the outer
loop is sequential). -/
def processed_bins (H : Nat) : List (Nat × Nat) :=
  (List.range 2).flatMap
    (fun pair => (List.range H).map (fun heaps => (pair, heaps)))

theorem pool_scan_foldl_le (f : PoolScan → ℚ) (g : Particle → ℚ)
    (hstep : ∀ s p, f (pool_scan_step s p) ≤ f s ∧
      f (pool_scan_step s p) ≤ g p) :
    ∀ (l : List Particle) (s0 : PoolScan),
      f (l.foldl pool_scan_step s0) ≤ f s0 ∧
      ∀ p ∈ l, f (l.foldl pool_scan_step s0) ≤ g p := by
  intro l
  induction l with
  | nil =>
    intro s0
    exact ⟨le_refl _, fun p hp => absurd hp (List.not_mem_nil p)⟩
  | cons q l ih =>
    intro s0
    have h1 := ih (pool_scan_step s0 q)
    refine ⟨le_trans h1.1 (hstep s0 q).1, ?_⟩
    intro p hp
    rcases List.mem_cons.mp hp with h | h
    · subst h
      exact le_trans h1.1 (hstep s0 p).2
    · exact h1.2 p h

theorem pool_scan_minX_le (parlist : List Particle) (p : Particle)
    (hp : p ∈ parlist) : (pool_scan parlist).minX ≤ p.loc.x :=
  (pool_scan_foldl_le (fun s => s.minX) (fun q => q.loc.x)
    (fun s q => by
      constructor <;> simp only [pool_scan_step] <;> split <;> linarith)
    parlist _).2 p hp

theorem pool_scan_minY_le (parlist : List Particle) (p : Particle)
    (hp : p ∈ parlist) : (pool_scan parlist).minY ≤ p.loc.y :=
  (pool_scan_foldl_le (fun s => s.minY) (fun q => q.loc.y)
    (fun s q => by
      constructor <;> simp only [pool_scan_step] <;> split <;> linarith)
    parlist _).2 p hp

theorem pool_scan_minZ_le (parlist : List Particle) (p : Particle)
    (hp : p ∈ parlist) : (pool_scan parlist).minZ ≤ p.loc.z :=
  (pool_scan_foldl_le (fun s => s.minZ) (fun q => q.loc.z)
    (fun s q => by
      constructor <;> simp only [pool_scan_step] <;> split <;> linarith)
    parlist _).2 p hp

theorem pool_axis_cases (s : PoolScan) :
    pool_axis s = (-1, 0, 0) ∨
    pool_axis s = (0, 0 - s.minX, s.maxX + (0 - s.minX)) ∨
    pool_axis s = (1, 0 - s.minY, s.maxY + (0 - s.minY)) ∨
    pool_axis s = (2, 0 - s.minZ, s.maxZ + (0 - s.minZ)) := by
  simp only [pool_axis]
  split
  · right; right; right; rfl
  · split
    · right; right; left; rfl
    · split
      · right; left; rfl
      · left; rfl

theorem pool_offset_nonneg (parlist : List Particle) (p : Particle)
    (hp : p ∈ parlist)
    (haxis : (pool_axis (pool_scan parlist)).1 ≠ -1) :
    0 ≤ locAxis p (pool_axis (pool_scan parlist)).1 +
      (pool_axis (pool_scan parlist)).2.1 := by
  rcases pool_axis_cases (pool_scan parlist) with h | h | h | h
  · rw [h] at haxis
    simp at haxis
  · rw [h]
    have hles := pool_scan_minX_le parlist p hp
    simp only [locAxis]
    norm_num
    linarith
  · rw [h]
    have hles := pool_scan_minY_le parlist p hp
    simp only [locAxis]
    norm_num
    linarith
  · rw [h]
    have hles := pool_scan_minZ_le parlist p hp
    simp only [locAxis]
    norm_num
    linarith

theorem ctrunc_eq_floor (q : ℚ) (h : 0 ≤ q) : ctrunc q = ⌊q⌋ := by
  rw [ctrunc, if_pos h]

theorem ctrunc_cfmod_two (x : ℚ) (hx : 0 ≤ x) :
    ctrunc (cfmod x 2) = ctrunc x % 2 := by
  have hx2 : (0 : ℚ) ≤ x / 2 := by positivity
  have hk1 : ((⌊x / 2⌋ : ℤ) : ℚ) ≤ x / 2 := Int.floor_le _
  have hk2 : x / 2 < (⌊x / 2⌋ : ℤ) + 1 := Int.lt_floor_add_one _
  have hrem : (0 : ℚ) ≤ x - 2 * ((⌊x / 2⌋ : ℤ) : ℚ) := by linarith
  have hfl1 : 2 * ⌊x / 2⌋ ≤ ⌊x⌋ := by
    rw [Int.le_floor]
    push_cast
    linarith
  have hfl2 : ⌊x⌋ < 2 * ⌊x / 2⌋ + 2 := by
    rw [Int.floor_lt]
    push_cast
    linarith
  rw [cfmod, ctrunc_eq_floor _ hx, ctrunc_eq_floor _ hx2]
  rw [ctrunc_eq_floor _ hrem]
  have hcast : x - 2 * ((⌊x / 2⌋ : ℤ) : ℚ) =
      x - ((2 * ⌊x / 2⌋ : ℤ) : ℚ) := by push_cast; ring
  rw [hcast, Int.floor_sub_int]
  omega

theorem processed_bins_eq (H : Nat) :
    processed_bins H = (List.range H).map (fun h => (0, h)) ++
      (List.range H).map (fun h => (1, h)) := by
  have h2 : List.range 2 = [0, 1] := rfl
  rw [processed_bins, h2]
  simp [List.flatMap]

theorem processed_bins_parity (H : Nat) :
    ∀ i, i < H + H →
      ((processed_bins H).getD i (0, 0)).1 = if i < H then 0 else 1 := by
  intro i hi
  rw [processed_bins_eq, List.getD_eq_getElem?_getD]
  by_cases h : i < H
  · rw [List.getElem?_append_left (by simpa using h)]
    rw [List.getElem?_map, List.getElem?_range h]
    simp [h]
  · rw [List.getElem?_append_right (by simpa using not_lt.mp h)]
    have hlt : i - (List.range H).length < H := by
      simpa using by omega
    rw [List.length_map, List.length_range] at *
    rw [List.getElem?_map, List.getElem?_range (by omega)]
    simp [h]

/-- C7: in the collision/link resolution phase, provided the dominant
axis was actually selected (axis not left at -1 by the degenerate
Y = Z > X tie) and the adjusted maxSize is positive, every particle of
the list is binned into the heap with index
floor((loc[axis] + offset) * scale); the parity tag computed for it by
the float modulo equals that bin index modulo 2; and in the processing
loop every parity-0 bin is processed before every parity-1 bin. -/
theorem C7_parity_partition (parlist : List Particle) (cpunum : ℚ)
    (p : Particle) (hp : p ∈ parlist)
    (haxis : (pool_axis (pool_scan parlist)).1 ≠ -1)
    (hms : 0 < pool_maxSize2 (pool_scan parlist) cpunum) :
    heap_index p (pool_axis (pool_scan parlist)).1
        (pool_axis (pool_scan parlist)).2.1
        (pool_scale (pool_scan parlist) cpunum) =
      ⌊(locAxis p (pool_axis (pool_scan parlist)).1 +
          (pool_axis (pool_scan parlist)).2.1) *
        pool_scale (pool_scan parlist) cpunum⌋ ∧
    pair_index p (pool_axis (pool_scan parlist)).1
        (pool_axis (pool_scan parlist)).2.1
        (pool_scale (pool_scan parlist) cpunum) =
      heap_index p (pool_axis (pool_scan parlist)).1
        (pool_axis (pool_scan parlist)).2.1
        (pool_scale (pool_scan parlist) cpunum) % 2 ∧
    ∀ i j : Nat,
      i < (processed_bins (pool_heap_count (pool_scan parlist) cpunum)).length →
      j < (processed_bins (pool_heap_count (pool_scan parlist) cpunum)).length →
      ((processed_bins (pool_heap_count (pool_scan parlist) cpunum)).getD i
        (0, 0)).1 = 0 →
      ((processed_bins (pool_heap_count (pool_scan parlist) cpunum)).getD j
        (0, 0)).1 = 1 →
      i < j := by
  have hscale : 0 ≤ pool_scale (pool_scan parlist) cpunum := by
    rw [pool_scale]
    positivity
  have hloc := pool_offset_nonneg parlist p hp haxis
  have hx : 0 ≤ (locAxis p (pool_axis (pool_scan parlist)).1 +
      (pool_axis (pool_scan parlist)).2.1) *
      pool_scale (pool_scan parlist) cpunum :=
    mul_nonneg hloc hscale
  refine ⟨?_, ?_, ?_⟩
  · rw [heap_index, ctrunc_eq_floor _ hx]
  · rw [pair_index, heap_index, ctrunc_cfmod_two _ hx]
  · intro i j hi hj h0 h1
    have hlen : (processed_bins (pool_heap_count (pool_scan parlist)
        cpunum)).length =
        pool_heap_count (pool_scan parlist) cpunum +
        pool_heap_count (pool_scan parlist) cpunum := by
      rw [processed_bins_eq]
      simp
    rw [hlen] at hi hj
    have pi2 := processed_bins_parity _ i hi
    have pj2 := processed_bins_parity _ j hj
    rw [h0] at pi2
    rw [h1] at pj2
    by_cases hiH : i < pool_heap_count (pool_scan parlist) cpunum
    · by_cases hjH : j < pool_heap_count (pool_scan parlist) cpunum
      · rw [if_pos hjH] at pj2
        exact absurd pj2 (by decide)
      · omega
    · rw [if_neg hiH] at pi2
      exact absurd pi2 (by decide)

/-- Concrete two-particle configuration exercising the partitioner. -/
def c7parA : Particle := ⟨0, ⟨0, 0, 0⟩, ⟨0, 0, 0⟩, 1, 1, 3, false, []⟩

def c7parB : Particle := ⟨1, ⟨10, 1, 1⟩, ⟨0, 0, 0⟩, 1, 1, 3, false, []⟩

theorem C7_witness :
    c7parA ∈ [c7parA, c7parB] ∧
    (pool_axis (pool_scan [c7parA, c7parB])).1 ≠ -1 ∧
    0 < pool_maxSize2 (pool_scan [c7parA, c7parB]) 4 ∧
    (heap_index c7parA (pool_axis (pool_scan [c7parA, c7parB])).1
        (pool_axis (pool_scan [c7parA, c7parB])).2.1
        (pool_scale (pool_scan [c7parA, c7parB]) 4) =
      ⌊(locAxis c7parA (pool_axis (pool_scan [c7parA, c7parB])).1 +
          (pool_axis (pool_scan [c7parA, c7parB])).2.1) *
        pool_scale (pool_scan [c7parA, c7parB]) 4⌋ ∧
    pair_index c7parA (pool_axis (pool_scan [c7parA, c7parB])).1
        (pool_axis (pool_scan [c7parA, c7parB])).2.1
        (pool_scale (pool_scan [c7parA, c7parB]) 4) =
      heap_index c7parA (pool_axis (pool_scan [c7parA, c7parB])).1
        (pool_axis (pool_scan [c7parA, c7parB])).2.1
        (pool_scale (pool_scan [c7parA, c7parB]) 4) % 2 ∧
    ∀ i j : Nat,
      i < (processed_bins
        (pool_heap_count (pool_scan [c7parA, c7parB]) 4)).length →
      j < (processed_bins
        (pool_heap_count (pool_scan [c7parA, c7parB]) 4)).length →
      ((processed_bins
        (pool_heap_count (pool_scan [c7parA, c7parB]) 4)).getD i
          (0, 0)).1 = 0 →
      ((processed_bins
        (pool_heap_count (pool_scan [c7parA, c7parB]) 4)).getD j
          (0, 0)).1 = 1 →
      i < j) :=
  ⟨by decide, by with_unfolding_all decide, by with_unfolding_all decide,
   C7_parity_partition [c7parA, c7parB] 4 c7parA (by decide)
     (by with_unfolding_all decide) (by with_unfolding_all decide)⟩
